import Mathlib

/-!
Verification development for the "Excel Nickname Filter" web application.

The application lets a user upload a spreadsheet of club member balances,
match its rows against a user-supplied list of nicknames (each with an
optional monetary "line"), compute a profit/loss figure per matched row and
assemble a new, styled output sheet.  The core logic lives in
`src/utils/excelUtils.ts` (`readNameFile`, `filterWorkbookByNicknames`,
`downloadExcelFile`) and `src/components/NicknameInput.tsx`
(`parseNicknameText`, `formatNicknamesAsText`).

Modelling conventions:
* JavaScript strings are lists of characters (`JStr`); each string builtin
  used by the source (`includes`, `toLowerCase`, `trim`, `split`, `replace`
  with one-character arguments, template interpolation) is given an explicit
  executable model below.
* JavaScript numbers are modelled as rationals `ℚ`; the floating-point
  fragment the claims exercise (integer balances and lines, decimal
  literals) is exact in `ℚ`.  `NaN` is modelled by `Option` (`none` = NaN).
  Arithmetic that the source performs is expressed through `mkRat`-based
  helpers (`ratSub`, `mulThousand`, `divThousand`) so that the kernel can
  evaluate them; lemmas below identify them with the `ℚ` field operations.
* A worksheet is the row matrix the adapter (`XLSX.utils.sheet_to_json`
  with `header: 1, defval: ''`) delivers: a list of rows of cell values,
  blank cells being the empty string.  A workbook is an ordered association
  list of named sheets.
-/

namespace NickFilter

/-- Decidable equality for `Except`, so concrete runs of the fallible
operations can be checked by evaluation. -/
instance {ε α : Type} [DecidableEq ε] [DecidableEq α] : DecidableEq (Except ε α) := fun a b =>
  match a, b with
  | .ok x, .ok y =>
    if h : x = y then .isTrue (by rw [h]) else .isFalse (by intro hc; cases hc; exact h rfl)
  | .error x, .error y =>
    if h : x = y then .isTrue (by rw [h]) else .isFalse (by intro hc; cases hc; exact h rfl)
  | .ok _, .error _ => .isFalse (by intro hc; cases hc)
  | .error _, .ok _ => .isFalse (by intro hc; cases hc)

/-- JavaScript strings, modelled as lists of characters. -/
abbrev JStr := List Char

/-- Boolean test that the first list is a prefix of the second. -/
def charsPre : JStr → JStr → Bool
  | [], _ => true
  | _ :: _, [] => false
  | a :: as, b :: bs => a == b && charsPre as bs

/-- Model of `String.prototype.includes`: `jsIncludes s sub` searches for
`sub` as a contiguous substring of `s`. -/
def jsIncludes (s sub : JStr) : Bool :=
  s.tails.any (fun t => charsPre sub t)

/-- Model of `String.prototype.toLowerCase` (character-wise lowering). -/
def jsToLower (s : JStr) : JStr := s.map Char.toLower

/-- Model of `String.prototype.trim`: drop whitespace from both ends. -/
def jsTrim (s : JStr) : JStr :=
  ((s.dropWhile Char.isWhitespace).reverse.dropWhile Char.isWhitespace).reverse

/-- Model of `String.prototype.split` with a one-character separator, as the
source uses for `split('\n')` and `split('/')`.  `splitOnChar c s` returns
the (always non-empty) list of separator-free segments of `s`. -/
def splitOnChar (c : Char) : JStr → List JStr
  | [] => [[]]
  | x :: xs =>
    if x = c then [] :: splitOnChar c xs
    else
      match splitOnChar c xs with
      | [] => [[x]]
      | h :: t => (x :: h) :: t

/-- Model of `String.prototype.replace` with one-character pattern and
replacement: only the first occurrence is replaced, as in JavaScript. -/
def replaceFirstChar (pat rep : Char) : JStr → JStr
  | [] => []
  | x :: xs => if x = pat then rep :: xs else x :: replaceFirstChar pat rep xs

/-- Model of `Array.prototype.join('\n')` on a list of lines. -/
def joinLines : List JStr → JStr
  | [] => []
  | [l] => l
  | l :: ls => l ++ '\n' :: joinLines ls

/-- Numeric value of a most-significant-first list of decimal digits. -/
def digitsToNat (ds : JStr) : ℕ := ds.foldl (fun a c => 10 * a + (c.toNat - 48)) 0

/-- The character of a decimal digit. -/
def digitChar (d : ℕ) : Char := Char.ofNat (48 + d)

/-- Little-endian decimal digits of a natural number; the first argument is
structural-recursion fuel (any fuel `≥ n` gives the digits of `n`). -/
def natDigitsRevAux : ℕ → ℕ → JStr
  | 0, _ => []
  | fuel + 1, n => if n = 0 then [] else digitChar (n % 10) :: natDigitsRevAux fuel (n / 10)

/-- Decimal rendering of a natural number, as JavaScript stringifies one. -/
def natToChars (n : ℕ) : JStr :=
  if n = 0 then ['0'] else (natDigitsRevAux n n).reverse

/-- Decimal rendering of an integer, as JavaScript stringifies one. -/
def intToChars (i : ℤ) : JStr :=
  if i < 0 then '-' :: natToChars i.natAbs else natToChars i.natAbs

/-- Model of JavaScript `parseFloat` on the unsigned decimal-numeral
fragment: the longest prefix `digits` / `digits.digits` / `digits.` /
`.digits` is consumed; `none` models `NaN` (no numeral prefix).  Exponent
notation and `Infinity`, which the application's inputs do not use, are out
of scope.  The returned value is built with `mkRat` so it evaluates. -/
def parseUnsigned (cs : JStr) : Option (ℚ × JStr) :=
  let ip := cs.takeWhile Char.isDigit
  let r1 := cs.dropWhile Char.isDigit
  match r1 with
  | '.' :: r2 =>
    let fp := r2.takeWhile Char.isDigit
    let r3 := r2.dropWhile Char.isDigit
    if ip.isEmpty && fp.isEmpty then none
    else some (mkRat (digitsToNat ip * 10 ^ fp.length + digitsToNat fp) (10 ^ fp.length), r3)
  | _ => if ip.isEmpty then none else some (mkRat (digitsToNat ip) 1, r1)

/-- Signed decimal numeral: an optional sign followed by `parseUnsigned`. -/
def parseSigned (cs : JStr) : Option (ℚ × JStr) :=
  match cs with
  | '-' :: r => (parseUnsigned r).map (fun p => (-p.1, p.2))
  | '+' :: r => parseUnsigned r
  | _ => parseUnsigned cs

/-- Model of JavaScript `parseFloat`: leading whitespace is skipped, then
the longest signed decimal numeral prefix is read; `none` models `NaN`. -/
def jsParseFloat (s : JStr) : Option ℚ :=
  (parseSigned (s.dropWhile Char.isWhitespace)).map Prod.fst

/-- Model of JavaScript `Number()` on strings: a blank string is `0`, and
otherwise the whole trimmed string must be a signed decimal numeral;
`none` models `NaN`. -/
def jsNumberOfChars (s : JStr) : Option ℚ :=
  let t := jsTrim s
  if t.isEmpty then some 0
  else
    match parseSigned t with
    | some (q, []) => some q
    | _ => none

/-- Subtraction on `ℚ`, written through `mkRat` so the kernel can evaluate
it; `ratSub_eq` identifies it with `Sub.sub`. -/
def ratSub (a b : ℚ) : ℚ := mkRat (a.num * b.den - b.num * a.den) (a.den * b.den)

/-- Multiplication by the literal `1000` (the only multiplication the
source performs), through `mkRat`; `mulThousand_eq` identifies it. -/
def mulThousand (q : ℚ) : ℚ := mkRat (q.num * 1000) q.den

/-- Division by the literal `1000` (the only division the source performs),
through `mkRat`; `divThousand_eq` identifies it. -/
def divThousand (q : ℚ) : ℚ := mkRat q.num (q.den * 1000)

/-- A parsed nickname entry: `NicknameWithLine` of `src/types.ts`.  `line`
is the optional monetary line in whole currency units. -/
structure NicknameWithLine where
  nickname : JStr
  line : Option ℚ
deriving DecidableEq, Repr

/-- `line.split('/').map(part => part.trim())` of `parseNicknameText`. -/
def splitParts (line : JStr) : List JStr := (splitOnChar '/' line).map jsTrim

/-- The `nickname` component the destructuring
`const [nickname, lineStr] = line.split('/').map(...)` binds. -/
def nicknamePart (line : JStr) : JStr := (splitParts line).getD 0 []

/-- The `lineStr` component the same destructuring binds: the second
split segment only, not everything after the first slash. -/
def lineSpecPart (line : JStr) : JStr := (splitParts line).getD 1 []

/-- The per-line step of `parseNicknameText` (`NicknameInput.tsx`): a line
containing `/` is split on every `/` (JavaScript `split`), each part is
trimmed, and only the first two parts are kept by the destructuring
`const [nickname, lineStr] = ...`; the line spec has its first comma
replaced by a period and is read with `parseFloat`, a successful value
being scaled by 1000.  A falsy (empty) nickname produces no entry. -/
def parseOneLine (line : JStr) : Option NicknameWithLine :=
  if line.contains '/' then
    let nickname := nicknamePart line
    let lineValue := jsParseFloat (replaceFirstChar ',' '.' (lineSpecPart line))
    if nickname.isEmpty then none
    else
      match lineValue with
      | some v => some ⟨nickname, some (mulThousand v)⟩
      | none => some ⟨nickname, none⟩
  else some ⟨line, none⟩

/-- `parseNicknameText` of `NicknameInput.tsx`: split the text into lines,
trim each, drop blank lines, and parse each remaining line. -/
def parseNicknameText (text : JStr) : List NicknameWithLine :=
  (((splitOnChar '\n' text).map jsTrim).filter (fun l => !l.isEmpty)).filterMap parseOneLine

/-- Exactly `k` little-endian decimal digits of `n`, zero padded. -/
def padDigitsRev : ℕ → ℕ → JStr
  | 0, _ => []
  | k + 1, n => digitChar (n % 10) :: padDigitsRev k (n / 10)

/-- The least exponent `k ≤ 30` with `den ∣ 10 ^ k`, when one exists. -/
def pow10Exp (den : ℕ) : Option ℕ :=
  (List.range 31).find? (fun k => 10 ^ k % den = 0)

/-- JavaScript number-to-string formatting, modelled on the rational
fragment: integers render as decimal integers and rationals with a finite
decimal expansion render with a decimal point (minimal digit count, as
JavaScript prints them).  The final branch (no finite expansion, which
cannot arise for an IEEE double) renders `num/den` as a stand-in. -/
def ratToChars (q : ℚ) : JStr :=
  if q.den = 1 then intToChars q.num
  else
    match pow10Exp q.den with
    | some k =>
      let s := q.num.natAbs * (10 ^ k / q.den)
      (if q.num < 0 then ['-'] else []) ++
        natToChars (s / 10 ^ k) ++ '.' :: (padDigitsRev k (s % 10 ^ k)).reverse
    | none => intToChars q.num ++ '/' :: natToChars q.den

/-- One formatted line of `formatNicknamesAsText`. -/
def renderEntry (n : NicknameWithLine) : JStr :=
  match n.line with
  | some q => n.nickname ++ '/' :: ratToChars (divThousand q)
  | none => n.nickname

/-- `formatNicknamesAsText` of `NicknameInput.tsx`. -/
def formatNicknamesAsText (ns : List NicknameWithLine) : JStr :=
  joinLines (ns.map renderEntry)

/-- A spreadsheet cell as the `sheet_to_json` adapter delivers it: a string
or a number.  `nan` is the JavaScript number NaN, which the computation can
place into an output cell. -/
inductive CellValue where
  | str (s : JStr)
  | num (q : ℚ)
  | nan
deriving DecidableEq, Repr

/-- JavaScript truthiness of a cell value: the empty string, the number 0
and NaN are falsy. -/
def truthy : CellValue → Bool
  | .str s => !s.isEmpty
  | .num q => q.num != 0
  | .nan => false

/-- JavaScript `String(...)` of a cell value. -/
def cellToChars : CellValue → JStr
  | .str s => s
  | .num q => ratToChars q
  | .nan => "NaN".toList

/-- JavaScript `Number(...)` of a cell value; `none` models NaN. -/
def jsNumberOfCell : CellValue → Option ℚ
  | .str s => jsNumberOfChars s
  | .num q => some q
  | .nan => none

/-- A row of cells, as `sheet_to_json(ws, header: 1, defval: '')`
delivers it. -/
abbrev Row := List CellValue

/-- A workbook: an ordered association list of named sheets, each sheet
being its row matrix (`SheetNames` is the list of keys and `Sheets[name]`
the association lookup). -/
structure Workbook where
  sheets : List (JStr × List Row)
deriving DecidableEq, Repr

/-- `workbook.SheetNames`. -/
def sheetNames (wb : Workbook) : List JStr := wb.sheets.map Prod.fst

/-- `workbook.Sheets[name]` as an association-list lookup. -/
def findSheet (wb : Workbook) (name : JStr) : Option (List Row) :=
  (wb.sheets.find? (fun p => p.1 = name)).map Prod.snd

/-- The sheet name `readNameFile` requires. -/
def playerOverviewName : JStr := "Player overview".toList

/-- The sheet name `filterWorkbookByNicknames` requires. -/
def clubSheetName : JStr := "Club Member Balance".toList

/-- The record view `XLSX.utils.sheet_to_json(ws)` (no `header: 1`)
produces: the first row supplies the keys and every later row becomes a
key-value record, values beyond the shorter of the two lists being
absent. -/
def jsonRecords (rows : List Row) : List (List (JStr × CellValue)) :=
  match rows with
  | [] => []
  | hdr :: rest => rest.map (fun r => (hdr.map cellToChars).zip r)

/-- Property lookup on a record; `none` is JavaScript `undefined`. -/
def getField (rec : List (JStr × CellValue)) (key : JStr) : Option CellValue :=
  (rec.find? (fun p => p.1 = key)).map Prod.snd

/-- JavaScript `a || b` on possibly-undefined cell values: `a` when it is
defined and truthy, else `b`. -/
def jsOrCell (a b : Option CellValue) : Option CellValue :=
  match a with
  | some c => if truthy c then some c else b
  | none => b

/-- Truthiness of a possibly-undefined value (`undefined` is falsy). -/
def optTruthy : Option CellValue → Bool
  | some c => truthy c
  | none => false

/-- `Map.prototype.set`: insert or overwrite the binding of a key. -/
def mapSet (m : List (JStr × JStr)) (k v : JStr) : List (JStr × JStr) :=
  if m.any (fun p => p.1 = k) then m.map (fun p => if p.1 = k then (k, v) else p)
  else m ++ [(k, v)]

/-- `Map.prototype.get`; `none` is `undefined`. -/
def mapGet (m : List (JStr × JStr)) (k : JStr) : Option JStr :=
  (m.find? (fun p => p.1 = k)).map Prod.snd

/-- The mapping-building loop of `readNameFile`: for each record take the
first truthy of the `Nick`/`nick`/`NICK` fields and of the
`Name`/`name`/`NAME` fields, and when both are truthy store the pair under
the lowercased nickname key. -/
def buildNameMapping (rows : List Row) : List (JStr × JStr) :=
  (jsonRecords rows).foldl
    (fun m rec =>
      let nick := jsOrCell (getField rec ("Nick".toList))
        (jsOrCell (getField rec ("nick".toList)) (getField rec ("NICK".toList)))
      let name := jsOrCell (getField rec ("Name".toList))
        (jsOrCell (getField rec ("name".toList)) (getField rec ("NAME".toList)))
      match nick, name with
      | some nc, some nm =>
        if truthy nc && truthy nm then
          mapSet m (jsToLower (cellToChars nc)) (cellToChars nm)
        else m
      | _, _ => m)
    []

/-- `readNameFile` of `excelUtils.ts`, from the point where the reference
workbook has been decoded: it fails when the `Player overview` sheet is
absent and otherwise builds the nickname-to-name mapping. -/
def readNameFileFromWorkbook (wb : Workbook) : Except JStr (List (JStr × JStr)) :=
  if (sheetNames wb).contains playerOverviewName then
    .ok (buildNameMapping ((findSheet wb playerOverviewName).getD []))
  else .error ("Sheet \"Player overview\" not found in the name file.".toList)

/-- The lowercased column-K text of a row:
`row[10] ? String(row[10]).toLowerCase() : ''`.  An absent index (a short
row) is falsy like the blank default. -/
def columnKText (row : Row) : JStr :=
  let c := row.getD 10 (.str [])
  if truthy c then jsToLower (cellToChars c) else []

/-- `String(row[10])`, including the JavaScript stringification of
`undefined` when the row is shorter than 11 cells. -/
def actualNicknameChars (row : Row) : JStr :=
  match row.get? 10 with
  | some c => cellToChars c
  | none => "undefined".toList

/-- The first nickname entry whose lowercased nickname the lowercased
column-K text contains: `nicknames.find(...)` of the source. -/
def matchingNickname (ns : List NicknameWithLine) (k : JStr) : Option NicknameWithLine :=
  ns.find? (fun n => jsIncludes k (jsToLower n.nickname))

/-- JavaScript `a || b` for a possibly-undefined string with a string
fallback: empty strings are falsy. -/
def jsOrChars (a : Option JStr) (b : JStr) : JStr :=
  match a with
  | some s => if s.isEmpty then b else s
  | none => b

/-- Name resolution for a matched row: the mapping is consulted first with
the lowercased column-K text, then with the lowercased entry nickname, and
the display name defaults to the empty string. -/
def resolvedName (m : List (JStr × JStr)) (row : Row) (mn : NicknameWithLine) : JStr :=
  jsOrChars (mapGet m (jsToLower (actualNicknameChars row)))
    (jsOrChars (mapGet m (jsToLower mn.nickname)) [])

/-- The rounding the source applies to the profit/loss:
`profitLoss >= 0 ? Math.floor(profitLoss) : Math.ceil(profitLoss)`. -/
def jsRound (q : ℚ) : ℤ := if 0 ≤ q then q.floor else q.ceil

/-- The profit/loss of a matched row: balance minus line when the entry
has a line, the balance alone otherwise, rounded by `jsRound`; a NaN
balance propagates to a NaN profit/loss. -/
def plCompute (balance : Option ℚ) (line : Option ℚ) : Option ℤ :=
  match balance with
  | none => none
  | some b =>
    some (jsRound (match line with | some l => ratSub b l | none => b))

/-- The profit/loss value as the number placed in the output cell. -/
def plCell : Option ℤ → CellValue
  | some z => .num (z : ℚ)
  | none => .nan

/-- JavaScript `profitLoss < 0` (false for NaN). -/
def plLtZero : Option ℤ → Bool
  | some z => decide (z < 0)
  | none => false

/-- The string interpolated for `${profitLoss}`. -/
def plChars : Option ℤ → JStr
  | some z => intToChars z
  | none => "NaN".toList

/-- The message template of the source, chosen by the sign test
`profitLoss < 0`. -/
def messageChars (pl : Option ℤ) : JStr :=
  if plLtZero pl then "Hei🙂 Saldo er ".toList ++ plChars pl ++ ", mer info kommer".toList
  else "Hei🙂 Saldo er ".toList ++ plChars pl ++ ", hva vil du gjøre?".toList

/-- The 12-cell output row the classifier builds for a matched row. -/
def buildRowData (m : List (JStr × JStr)) (row : Row) (mn : NicknameWithLine) : Row :=
  let columnL := row.getD 11 (.num 0)
  let lineAmount : CellValue := match mn.line with | some q => .num q | none => .str []
  let pl := plCompute (jsNumberOfCell columnL) mn.line
  [row.getD 10 (.str []), .str (resolvedName m row mn), lineAmount, columnL,
    .str (if mn.line.isSome then "Yes".toList else "No".toList), plCell pl,
    .str [], .str [], .str [], .str [], .str [], .str (messageChars pl)]

/-- The per-row step of the classifier's `forEach`: a row produces an
output row exactly when some nickname entry matches its column-K text. -/
def processRow (ns : List NicknameWithLine) (m : List (JStr × JStr)) (row : Row) : Option Row :=
  (matchingNickname ns (columnKText row)).map (buildRowData m row)

/-- JavaScript `profitLoss >= 0` read off the output cell (false for
NaN). -/
def plGe0Cell : CellValue → Bool
  | .num q => decide (0 ≤ q)
  | _ => false

/-- One iteration of the classifier's `forEach`: an unmatched row leaves
the buckets alone; a matched row's output is pushed onto the positive
bucket when `profitLoss >= 0` and onto the negative bucket otherwise. -/
def classifyStep (ns : List NicknameWithLine) (m : List (JStr × JStr))
    (pn : List Row × List Row) (row : Row) : List Row × List Row :=
  match processRow ns m row with
  | none => pn
  | some rd =>
    if plGe0Cell (rd.getD 5 .nan) then (pn.1 ++ [rd], pn.2) else (pn.1, pn.2 ++ [rd])

/-- The classifier's scan: each data row is processed in order. -/
def classifyRows (ns : List NicknameWithLine) (m : List (JStr × JStr))
    (rows : List Row) : List Row × List Row :=
  rows.foldl (classifyStep ns m) ([], [])

/-- The sort comparator `(a, b) => b[5] - a[5]` as a strict precedence
test: `a` must precede `b` exactly when the comparator is negative, and a
NaN comparator value counts as zero (ECMAScript treats it so). -/
def rowLt (a b : Row) : Bool :=
  match a.getD 5 .nan, b.getD 5 .nan with
  | .num x, .num y => decide (y < x)
  | _, _ => false

/-- Stable insertion of a row into an already-sorted list: the row walks
past every strictly-greater row and stops before the first row it does not
strictly follow, so equal keys keep their encounter order. -/
def insertSorted (x : Row) : List Row → List Row
  | [] => [x]
  | y :: ys => if rowLt y x then y :: insertSorted x ys else x :: y :: ys

/-- The stable descending sort ECMAScript specifies for
`Array.prototype.sort` with the comparator above. -/
def sortRows (l : List Row) : List Row := l.foldr insertSorted []

/-- The main-table header row of the output. -/
def mainHeaders : Row :=
  [.str "Nickname".toList, .str "Name".toList, .str "Line Amount".toList,
    .str "Chips".toList, .str "Has Line".toList, .str "Profit/Loss".toList,
    .str "Pm".toList, .str "uttak sum".toList, .str "ruller".toList,
    .str "Claima chips".toList, .str "satt opp".toList, .str "Message".toList]

/-- The transfer-table header row of the output. -/
def transferHeadersRow : Row :=
  [.str "Avsender".toList, .str "sum".toList, .str "Mottaker".toList,
    .str "bekreftet".toList, .str "purra".toList]

/-- One blank 5-column transfer data row. -/
def blank5 : Row := List.replicate 5 (.str [])

/-- The assembled output rows: headers, positive rows, two blank spacer
rows, repeated headers, negative rows, ten blank spacer rows, then three
transfer sub-tables (header plus ten blank data rows) separated by two
blank rows. -/
def combinedData (pos neg : List Row) : List Row :=
  [mainHeaders] ++ pos ++ [[], []] ++ [mainHeaders] ++ neg ++
    List.replicate 10 [] ++
    (transferHeadersRow :: List.replicate 10 blank5) ++ [[], []] ++
    (transferHeadersRow :: List.replicate 10 blank5) ++ [[], []] ++
    (transferHeadersRow :: List.replicate 10 blank5)

/-- `filterWorkbookByNicknames` of `excelUtils.ts`: fail when the
`Club Member Balance` sheet is absent; produce a single empty sheet when
the nickname list is empty; otherwise drop the first three rows, classify,
sort each bucket and assemble the output workbook. -/
def filterWorkbookByNicknames (wb : Workbook) (ns : List NicknameWithLine)
    (m : List (JStr × JStr)) : Except JStr Workbook :=
  if (sheetNames wb).contains clubSheetName then
    let jsonData := (findSheet wb clubSheetName).getD []
    if ns.isEmpty then .ok ⟨[(clubSheetName, [])]⟩
    else
      let buckets := classifyRows ns m (jsonData.drop 3)
      .ok ⟨[(clubSheetName, combinedData (sortRows buckets.1) (sortRows buckets.2))]⟩
  else .error ("Sheet \"Club Member Balance\" not found in the uploaded file.".toList)

/-- The length `downloadExcelFile`'s auto-fit assigns a cell: the length
of its stringification when the value is truthy, and 10 for a blank,
zero, NaN or absent cell. -/
def cellLenAt (data : List Row) (i j : ℕ) : ℕ :=
  match (data.getD i []).get? j with
  | some c => if truthy c then (cellToChars c).length else 10
  | none => 10

/-- The per-column maximum of `cellLenAt` over all rows. -/
def colMaxLen (data : List Row) (j : ℕ) : ℕ :=
  (List.range data.length).foldl (fun m i => max m (cellLenAt data i j)) 0

/-- The column width `downloadExcelFile` assigns:
`maxLength < 10 ? 10 : maxLength + 2`. -/
def colWidth (data : List Row) (j : ℕ) : ℕ :=
  if colMaxLen data j < 10 then 10 else colMaxLen data j + 2

/-- The number of columns of a row matrix. -/
def numCols (data : List Row) : ℕ := data.foldl (fun m r => max m r.length) 0

/-- The widths `downloadExcelFile` assigns to the columns of the first
sheet of the workbook it writes. -/
def downloadColumnWidths (wb : Workbook) : List ℕ :=
  match wb.sheets with
  | [] => []
  | (_, rows) :: _ => (List.range (numCols rows)).map (colWidth rows)

/-- The mutable state of a `filterWorkbookByNicknames` call: the three
inputs the caller passed (reachable, hence mutable in principle) and the
locals the function body assigns (`newWorkbook`, `positiveData`,
`negativeData`). -/
structure FilterSt where
  workbook : Workbook
  nicknames : List NicknameWithLine
  nameMapping : List (JStr × JStr)
  newWorkbook : Workbook
  positiveData : List Row
  negativeData : List Row
deriving DecidableEq, Repr

/-- Statement-by-statement replay of `filterWorkbookByNicknames` over an
explicit state.  Each step updates exactly the state components the
corresponding source statement writes: `book_new` and `book_append_sheet`
write `newWorkbook`, the `forEach` pushes write `positiveData` and
`negativeData`, the in-place sorts overwrite them, and every operation
applied to the inputs (`includes`, `sheet_to_json`, `slice`, `find`,
`Map.get`) is read-only.  A throw returns the state as it stands. -/
def filterRun (st : FilterSt) : FilterSt × Except JStr Workbook :=
  let st1 := { st with newWorkbook := ⟨[]⟩ }
  if (sheetNames st1.workbook).contains clubSheetName then
    let jsonData := (findSheet st1.workbook clubSheetName).getD []
    if st1.nicknames.isEmpty then
      let st2 := { st1 with newWorkbook := ⟨[(clubSheetName, [])]⟩ }
      (st2, .ok st2.newWorkbook)
    else
      let buckets := classifyRows st1.nicknames st1.nameMapping (jsonData.drop 3)
      let st2 := { st1 with positiveData := buckets.1, negativeData := buckets.2 }
      let st3 := { st2 with positiveData := sortRows st2.positiveData,
                            negativeData := sortRows st2.negativeData }
      let st4 := { st3 with newWorkbook :=
        ⟨[(clubSheetName, combinedData st3.positiveData st3.negativeData)]⟩ }
      (st4, .ok st4.newWorkbook)
  else (st1, .error ("Sheet \"Club Member Balance\" not found in the uploaded file.".toList))

/-- Specification-side matching rule, following the spec's words: the
first entry in entry order whose lowercased nickname text is a substring
(`List.IsInfix`) of the lowercased column-K text. -/
def firstSubstrMatch (ns : List NicknameWithLine) (k : JStr) : Option NicknameWithLine :=
  ns.find? (fun n => decide (jsToLower n.nickname <:+: k))

/-- Specification-side rounding toward zero: the truncating integer
division of the numerator by the denominator. -/
def truncTowardZero (q : ℚ) : ℤ := q.num.tdiv q.den

/-- Specification-side unrounded profit/loss: the balance minus the line
when the matched entry has one, the balance alone otherwise. -/
def specProfitLoss (b : ℚ) (line : Option ℚ) : ℚ :=
  match line with
  | some l => b - l
  | none => b

/-- The profit/loss cell of an output row (index 5). -/
def keyCell (r : Row) : CellValue := r.getD 5 .nan

/-- The numeric profit/loss key of an output row, defaulting to 0 for the
non-numeric cells that the sortedness statements exclude. -/
def keyQ (r : Row) : ℚ :=
  match keyCell r with
  | .num q => q
  | _ => 0

/-- An output row whose profit/loss cell holds a number. -/
def NumKey (r : Row) : Prop := ∃ q, keyCell r = CellValue.num q

/-- The rows of a list whose profit/loss cell is the number `k`, in
order: equal-key ties of the sort are stable exactly when this sublist is
unchanged by sorting. -/
def filterPL (k : ℚ) (l : List Row) : List Row :=
  l.filter (fun r => decide (keyCell r = CellValue.num k))

/-- Specification-side column width, as the claim words it:
`max(10, maxLen + 2)`. -/
def specWidth (data : List Row) (j : ℕ) : ℕ := max 10 (colMaxLen data j + 2)

end NickFilter

namespace NickFilter

theorem charsPre_iff (a b : JStr) : charsPre a b = true ↔ a <+: b := by
  induction a generalizing b with
  | nil => simp [charsPre]
  | cons x xs ih =>
    cases b with
    | nil => simp [charsPre]
    | cons y ys =>
      simp only [charsPre, Bool.and_eq_true, beq_iff_eq, ih]
      constructor
      · rintro ⟨rfl, t, rfl⟩
        exact ⟨t, rfl⟩
      · rintro ⟨t, ht⟩
        injection ht with h1 h2
        exact ⟨h1, t, h2⟩

theorem jsIncludes_iff (s sub : JStr) : jsIncludes s sub = true ↔ sub <:+: s := by
  simp only [jsIncludes, List.any_eq_true, charsPre_iff]
  rw [List.infix_iff_prefix_suffix]
  constructor
  · rintro ⟨t, ht, hp⟩
    exact ⟨t, hp, (List.mem_tails _ _).mp ht⟩
  · rintro ⟨t, hp, hs⟩
    exact ⟨t, (List.mem_tails _ _).mpr hs, hp⟩

theorem splitOnChar_ne_nil (c : Char) (l : JStr) : splitOnChar c l ≠ [] := by
  cases l with
  | nil => simp [splitOnChar]
  | cons x xs =>
    simp only [splitOnChar]
    split
    · simp
    · split <;> simp

theorem splitOnChar_not_mem {c : Char} {l : JStr} (h : c ∉ l) : splitOnChar c l = [l] := by
  induction l with
  | nil => rfl
  | cons x xs ih =>
    simp only [List.mem_cons, not_or] at h
    have hx : x ≠ c := fun e => h.1 e.symm
    simp only [splitOnChar, if_neg hx, ih h.2]

theorem splitOnChar_append {c : Char} {a : JStr} (b : JStr) (h : c ∉ a) :
    splitOnChar c (a ++ c :: b) = a :: splitOnChar c b := by
  induction a with
  | nil => simp [splitOnChar]
  | cons x xs ih =>
    simp only [List.mem_cons, not_or] at h
    have hx : x ≠ c := fun e => h.1 e.symm
    have hne := splitOnChar_ne_nil c (xs ++ c :: b)
    simp only [List.cons_append, splitOnChar, if_neg hx, List.append_eq]
    rw [ih h.2]

theorem splitOnChar_head (c : Char) (l : JStr) :
    (splitOnChar c l).getD 0 [] = l.takeWhile (fun x => x ≠ c) := by
  induction l with
  | nil => rfl
  | cons x xs ih =>
    by_cases hx : x = c
    · subst hx
      simp [splitOnChar, List.takeWhile]
    · have hne := splitOnChar_ne_nil c xs
      cases hsp : splitOnChar c xs with
      | nil => exact absurd hsp hne
      | cons h t =>
        rw [hsp] at ih
        simp only [List.getD_cons_zero] at ih
        simp only [splitOnChar, if_neg hx, hsp, List.getD_cons_zero, List.takeWhile]
        simp [hx, ih]

theorem replaceFirstChar_not_mem {pat : Char} (rep : Char) {l : JStr} (h : pat ∉ l) :
    replaceFirstChar pat rep l = l := by
  induction l with
  | nil => rfl
  | cons x xs ih =>
    simp only [List.mem_cons, not_or] at h
    have hx : x ≠ pat := fun e => h.1 e.symm
    simp only [replaceFirstChar, if_neg hx, ih h.2]

theorem dropWhile_append_singleton {p : Char → Bool} {c : Char} (h : p c = false) (xs : JStr) :
    (xs ++ [c]).dropWhile p = xs.dropWhile p ++ [c] := by
  induction xs with
  | nil => simp [List.dropWhile, h]
  | cons x t ih =>
    simp only [List.cons_append, List.dropWhile]
    cases hx : p x <;> simp [ih]

end NickFilter

namespace NickFilter

theorem digitChar_isDigit {d : ℕ} (h : d < 10) : (digitChar d).isDigit = true := by
  interval_cases d <;> decide

theorem digitChar_toNat {d : ℕ} (h : d < 10) : (digitChar d).toNat - 48 = d := by
  interval_cases d <;> decide

theorem digitChar_props {d : ℕ} (h : d < 10) :
    (digitChar d).isWhitespace = false ∧ digitChar d ≠ '-' ∧ digitChar d ≠ '+' ∧
      digitChar d ≠ '.' ∧ digitChar d ≠ '/' ∧ digitChar d ≠ ',' ∧ digitChar d ≠ '\n' := by
  interval_cases d <;> exact ⟨rfl, by decide, by decide, by decide, by decide, by decide, by decide⟩

theorem digitsToNat_append_singleton (l : JStr) (c : Char) :
    digitsToNat (l ++ [c]) = 10 * digitsToNat l + (c.toNat - 48) := by
  simp [digitsToNat, List.foldl_append]

theorem natDigitsRevAux_spec :
    ∀ fuel n, n ≤ fuel → digitsToNat (natDigitsRevAux fuel n).reverse = n ∧
      ∀ c ∈ natDigitsRevAux fuel n, ∃ d, d < 10 ∧ c = digitChar d := by
  intro fuel
  induction fuel with
  | zero =>
    intro n hn
    have : n = 0 := Nat.le_zero.mp hn
    subst this
    exact ⟨rfl, by simp [natDigitsRevAux]⟩
  | succ f ih =>
    intro n hn
    by_cases h0 : n = 0
    · subst h0
      exact ⟨rfl, by simp [natDigitsRevAux]⟩
    · have hdiv : n / 10 ≤ f := by
        have : n / 10 < n := Nat.div_lt_self (Nat.pos_of_ne_zero h0) (by decide)
        omega
      obtain ⟨ihv, ihm⟩ := ih (n / 10) hdiv
      have hmod : n % 10 < 10 := Nat.mod_lt _ (by decide)
      constructor
      · simp only [natDigitsRevAux, if_neg h0, List.reverse_cons]
        rw [digitsToNat_append_singleton, ihv, digitChar_toNat hmod]
        omega
      · intro c hc
        simp only [natDigitsRevAux, if_neg h0, List.mem_cons] at hc
        rcases hc with rfl | hc
        · exact ⟨n % 10, hmod, rfl⟩
        · exact ihm c hc

theorem natToChars_spec (n : ℕ) :
    digitsToNat (natToChars n) = n ∧
      (∀ c ∈ natToChars n, ∃ d, d < 10 ∧ c = digitChar d) ∧ natToChars n ≠ [] := by
  by_cases h0 : n = 0
  · subst h0
    refine ⟨by decide, ?_, by decide⟩
    intro c hc
    simp [natToChars] at hc
    exact ⟨0, by decide, by rw [hc]; rfl⟩
  · obtain ⟨hv, hm⟩ := natDigitsRevAux_spec n n le_rfl
    refine ⟨?_, ?_, ?_⟩
    · simp only [natToChars, if_neg h0]
      exact hv
    · intro c hc
      simp only [natToChars, if_neg h0, List.mem_reverse] at hc
      exact hm c hc
    · simp only [natToChars, if_neg h0, ne_eq, List.reverse_eq_nil_iff]
      cases hn : n with
      | zero => exact absurd hn h0
      | succ m =>
        subst hn
        simp [natDigitsRevAux]

theorem intToChars_digits (k : ℤ) :
    ∀ c ∈ intToChars k, c = '-' ∨ ∃ d, d < 10 ∧ c = digitChar d := by
  intro c hc
  simp only [intToChars] at hc
  split at hc
  · rw [List.mem_cons] at hc
    rcases hc with rfl | hc
    · exact Or.inl rfl
    · exact Or.inr ((natToChars_spec _).2.1 c hc)
  · exact Or.inr ((natToChars_spec _).2.1 c hc)

theorem parseUnsigned_all_digits {l : JStr} (hne : l ≠ [])
    (hd : ∀ c ∈ l, ∃ d, d < 10 ∧ c = digitChar d) :
    parseUnsigned l = some (mkRat (digitsToNat l) 1, []) := by
  have hdig : ∀ c ∈ l, c.isDigit = true := by
    intro c hc
    obtain ⟨d, hd10, rfl⟩ := hd c hc
    exact digitChar_isDigit hd10
  have htake : l.takeWhile Char.isDigit = l := List.takeWhile_eq_self_iff.mpr hdig
  have hdrop : l.dropWhile Char.isDigit = [] := List.dropWhile_eq_nil_iff.mpr hdig
  simp only [parseUnsigned, htake, hdrop]
  simp [List.isEmpty_iff, hne]

theorem parseSigned_digits {l : JStr} (hne : l ≠ [])
    (hd : ∀ c ∈ l, ∃ d, d < 10 ∧ c = digitChar d) :
    parseSigned l = parseUnsigned l := by
  cases l with
  | nil => exact absurd rfl hne
  | cons x xs =>
    obtain ⟨d, hd10, rfl⟩ := hd x (List.mem_cons_self x xs)
    obtain ⟨-, hminus, hplus, -⟩ := digitChar_props hd10
    unfold parseSigned
    split
    · next heq => injection heq with h1 _; exact absurd h1 hminus
    · next heq => injection heq with h1 _; exact absurd h1 hplus
    · rfl

theorem mkRat_nat_one (n : ℕ) : mkRat (n : ℤ) 1 = (n : ℚ) := by
  rw [Rat.mkRat_eq_div]
  simp

theorem parseSigned_minus (r : JStr) :
    parseSigned ('-' :: r) = (parseUnsigned r).map (fun p => (-p.1, p.2)) := rfl

theorem jsParseFloat_natToChars (n : ℕ) : jsParseFloat (natToChars n) = some (n : ℚ) := by
  obtain ⟨hv, hm, hne⟩ := natToChars_spec n
  have hd : ∀ c ∈ natToChars n, ∃ d, d < 10 ∧ c = digitChar d := hm
  have hnws : (natToChars n).dropWhile Char.isWhitespace = natToChars n := by
    cases hl : natToChars n with
    | nil => rfl
    | cons x xs =>
      have hx : x ∈ natToChars n := by rw [hl]; exact List.mem_cons_self x xs
      obtain ⟨d, hd10, rfl⟩ := hm x hx
      rw [List.dropWhile_cons, (digitChar_props hd10).1]
      simp
  rw [jsParseFloat, hnws, parseSigned_digits hne hd, parseUnsigned_all_digits hne hd, hv]
  simp [mkRat_nat_one]

theorem jsParseFloat_intToChars (k : ℤ) : jsParseFloat (intToChars k) = some (k : ℚ) := by
  by_cases hk : k < 0
  · have hne := (natToChars_spec k.natAbs).2.2
    have hm := (natToChars_spec k.natAbs).2.1
    have hv := (natToChars_spec k.natAbs).1
    simp only [intToChars, if_pos hk, jsParseFloat]
    rw [List.dropWhile_cons]
    have hws : ('-').isWhitespace = false := by decide
    rw [hws]
    simp only [Bool.false_eq_true, if_false]
    rw [parseSigned_minus, parseUnsigned_all_digits hne hm, hv]
    have hkq : (k : ℚ) ≤ 0 := by exact_mod_cast le_of_lt hk
    simp [mkRat_nat_one, Int.cast_natAbs, abs_of_nonpos hkq]
  · simp only [intToChars, if_neg hk]
    rw [jsParseFloat_natToChars]
    congr 1
    have hkq : (0 : ℚ) ≤ (k : ℚ) := by exact_mod_cast not_lt.mp hk
    simp [Int.cast_natAbs, abs_of_nonneg hkq]

end NickFilter

namespace NickFilter

theorem dropWhile_head_false {p : Char → Bool} {l : JStr} (h : l.dropWhile p = l)
    (hne : l ≠ []) : ∃ x xs, l = x :: xs ∧ p x = false := by
  cases l with
  | nil => exact absurd rfl hne
  | cons x xs =>
    refine ⟨x, xs, rfl, ?_⟩
    by_contra hp
    have hp' : p x = true := by
      cases hx : p x
      · exact absurd hx hp
      · rfl
    rw [List.dropWhile_cons, hp'] at h
    simp only [if_true] at h
    have hlen := (List.dropWhile_suffix (l := xs) p).length_le
    rw [h] at hlen
    simp at hlen

theorem jsTrim_fix {l : JStr} (h : jsTrim l = l) :
    l.dropWhile Char.isWhitespace = l ∧ l.reverse.dropWhile Char.isWhitespace = l.reverse := by
  have hlenA : (l.dropWhile Char.isWhitespace).length ≤ l.length :=
    (List.dropWhile_suffix _).length_le
  have hlenB :
      ((l.dropWhile Char.isWhitespace).reverse.dropWhile Char.isWhitespace).length ≤
        (l.dropWhile Char.isWhitespace).length := by
    simpa using
      (List.dropWhile_suffix (l := (l.dropWhile Char.isWhitespace).reverse)
        Char.isWhitespace).length_le
  have hlen := congrArg List.length h
  unfold jsTrim at hlen
  simp only [List.length_reverse] at hlen
  have hA : l.dropWhile Char.isWhitespace = l :=
    (List.dropWhile_suffix _).eq_of_length (by omega)
  have hB :
      (l.dropWhile Char.isWhitespace).reverse.dropWhile Char.isWhitespace =
        (l.dropWhile Char.isWhitespace).reverse := by
    refine (List.dropWhile_suffix _).eq_of_length ?_
    simp only [List.length_reverse]
    omega
  rw [hA] at hB
  exact ⟨hA, hB⟩

theorem jsTrim_eq_self {l : JStr} (h : ∀ c ∈ l, c.isWhitespace = false) : jsTrim l = l := by
  have h1 : l.dropWhile Char.isWhitespace = l := by
    cases l with
    | nil => rfl
    | cons x xs =>
      rw [List.dropWhile_cons, h x (List.mem_cons_self x xs)]
      simp
  have h2 : l.reverse.dropWhile Char.isWhitespace = l.reverse := by
    cases hr : l.reverse with
    | nil => rfl
    | cons y ys =>
      have hy : y ∈ l := by
        rw [← List.mem_reverse, hr]
        exact List.mem_cons_self y ys
      rw [List.dropWhile_cons, h y hy]
      simp
  unfold jsTrim
  rw [h1, h2, List.reverse_reverse]

theorem jsTrim_append_mid {n s : JStr} (c : Char) (hcw : c.isWhitespace = false)
    (hn : jsTrim n = n) (hne : n ≠ []) (hs : jsTrim s = s) :
    jsTrim (n ++ c :: s) = n ++ c :: s := by
  obtain ⟨hn1, hn2⟩ := jsTrim_fix hn
  obtain ⟨x, xs, hx, hxw⟩ := dropWhile_head_false hn1 hne
  have h1 : (n ++ c :: s).dropWhile Char.isWhitespace = n ++ c :: s := by
    rw [hx, List.cons_append, List.dropWhile_cons, hxw]
    simp
  have h2 : (n ++ c :: s).reverse.dropWhile Char.isWhitespace = (n ++ c :: s).reverse := by
    rw [List.reverse_append, List.reverse_cons]
    cases hsr : s.reverse with
    | nil =>
      simp only [List.nil_append, List.cons_append, List.dropWhile_cons, hcw]
      simp
    | cons y ys =>
      have hy : Char.isWhitespace y = false := by
        obtain ⟨hs1, hs2⟩ := jsTrim_fix hs
        rw [hsr] at hs2
        obtain ⟨z, zs, hz, hzw⟩ := dropWhile_head_false hs2 (by simp)
        injection hz with hz1 _
        rw [← hz1] at hzw
        exact hzw
      simp only [List.cons_append, List.dropWhile_cons, hy]
      simp
  unfold jsTrim
  rw [h1, h2, List.reverse_reverse]

theorem ratSub_eq (a b : ℚ) : ratSub a b = a - b := by
  have ha : ((a.den : ℚ)) ≠ 0 := by
    exact_mod_cast a.den_nz
  have hb : ((b.den : ℚ)) ≠ 0 := by
    exact_mod_cast b.den_nz
  rw [ratSub, Rat.mkRat_eq_div]
  push_cast
  conv_rhs => rw [← Rat.num_div_den a, ← Rat.num_div_den b]
  rw [div_sub_div _ _ ha hb]
  congr 1
  ring

theorem mulThousand_eq (q : ℚ) : mulThousand q = q * 1000 := by
  have hq : ((q.den : ℚ)) ≠ 0 := by
    exact_mod_cast q.den_nz
  rw [mulThousand, Rat.mkRat_eq_div]
  push_cast
  conv_rhs => rw [← Rat.num_div_den q]
  field_simp

theorem divThousand_eq (q : ℚ) : divThousand q = q / 1000 := by
  have hq : ((q.den : ℚ)) ≠ 0 := by
    exact_mod_cast q.den_nz
  rw [divThousand, Rat.mkRat_eq_div]
  push_cast
  conv_rhs => rw [← Rat.num_div_den q]
  rw [div_div]

end NickFilter

namespace NickFilter

theorem tdiv_neg_not_dvd {a b : ℤ} (ha : a < 0) (hb : 0 < b) (hnd : ¬ b ∣ a) :
    a.tdiv b = a / b + 1 := by
  have hnn : (0 : ℤ) ≤ -a := by omega
  have h1 : a.tdiv b = -((-a).tdiv b) := by
    conv_lhs => rw [show a = -(-a) by ring]
    rw [Int.neg_tdiv]
  rw [h1, Int.tdiv_eq_ediv hnn (le_of_lt hb)]
  have hmod := Int.ediv_add_emod a b
  have hmz : a % b ≠ 0 := by
    intro hz
    exact hnd ⟨a / b, by omega⟩
  have hm0 : 0 ≤ a % b := Int.emod_nonneg a (by omega)
  have hmb : a % b < b := Int.emod_lt_of_pos a hb
  have huniq : (-a) / b = -(a / b) - 1 := by
    have := (Int.ediv_emod_unique (a := -a) (r := b - a % b) (q := -(a / b) - 1) hb).mpr
      ⟨by linear_combination -hmod, by omega, by omega⟩
    exact this.1
  rw [huniq]
  ring

theorem jsRound_eq (q : ℚ) : jsRound q = truncTowardZero q := by
  unfold jsRound truncTowardZero
  have hdenpos : (0 : ℤ) < (q.den : ℤ) := by
    exact_mod_cast Nat.pos_of_ne_zero q.den_nz
  by_cases hq : 0 ≤ q
  · rw [if_pos hq, Rat.floor_def']
    exact (Int.tdiv_eq_ediv (Rat.num_nonneg.mpr hq) (le_of_lt hdenpos)).symm
  · rw [if_neg hq]
    have hnum : q.num < 0 := by
      by_contra hn
      exact hq (Rat.num_nonneg.mp (not_lt.mp hn))
    by_cases hden : q.den = 1
    · unfold Rat.ceil
      rw [if_pos hden, hden]
      simp [Int.tdiv_one]
    · unfold Rat.ceil
      rw [if_neg hden]
      have hnd : ¬ ((q.den : ℤ) ∣ q.num) := by
        intro hdvd
        have h1 : q.den ∣ q.num.natAbs := Int.natCast_dvd.mp hdvd
        have h2 : q.den ∣ Nat.gcd q.num.natAbs q.den := Nat.dvd_gcd h1 dvd_rfl
        rw [q.reduced] at h2
        exact hden (Nat.dvd_one.mp h2)
      exact (tdiv_neg_not_dvd hnum hdenpos hnd).symm

end NickFilter

namespace NickFilter

/-- C8: `filterWorkbookByNicknames` fails if and only if the input workbook
has no sheet named exactly `Club Member Balance`, and the name-file reader
fails if and only if the reference workbook has no sheet named exactly
`Player overview`; an error case carries no output workbook or mapping,
a success case no error. -/
theorem claim8_sheet_errors :
    (∀ (wb : Workbook) (ns : List NicknameWithLine) (m : List (JStr × JStr)),
      ((∃ w, filterWorkbookByNicknames wb ns m = Except.ok w) ↔
        (sheetNames wb).contains clubSheetName = true) ∧
      ((∃ e, filterWorkbookByNicknames wb ns m = Except.error e) ↔
        (sheetNames wb).contains clubSheetName = false)) ∧
    (∀ wb2 : Workbook,
      ((∃ mp, readNameFileFromWorkbook wb2 = Except.ok mp) ↔
        (sheetNames wb2).contains playerOverviewName = true) ∧
      ((∃ e, readNameFileFromWorkbook wb2 = Except.error e) ↔
        (sheetNames wb2).contains playerOverviewName = false)) := by
  constructor
  · intro wb ns m
    by_cases hc : (sheetNames wb).contains clubSheetName = true
    · unfold filterWorkbookByNicknames
      rw [if_pos hc, hc]
      by_cases hn : ns.isEmpty
      · simp [hn]
      · simp [hn]
    · have hc' : (sheetNames wb).contains clubSheetName = false := by
        cases h : (sheetNames wb).contains clubSheetName
        · rfl
        · exact absurd h hc
      unfold filterWorkbookByNicknames
      rw [if_neg hc, hc']
      simp
  · intro wb2
    by_cases hc : (sheetNames wb2).contains playerOverviewName = true
    · unfold readNameFileFromWorkbook
      rw [if_pos hc, hc]
      simp
    · have hc' : (sheetNames wb2).contains playerOverviewName = false := by
        cases h : (sheetNames wb2).contains playerOverviewName
        · rfl
        · exact absurd h hc
      unfold readNameFileFromWorkbook
      rw [if_neg hc, hc']
      simp

/-- C9 (amended): the assigned column width is `max(10, maxLen + 2)` except
when the per-column maximum content length is exactly 9, where the code
assigns 10 while the claimed formula gives 11. -/
theorem claim9_width_amended : ∀ (data : List Row) (j : ℕ), j < numCols data →
    (colMaxLen data j ≠ 9 → colWidth data j = specWidth data j) ∧
    (colMaxLen data j = 9 → colWidth data j = 10 ∧ specWidth data j = 11) := by
  intro data j _
  unfold colWidth specWidth
  constructor
  · intro h9
    split_ifs with h
    · omega
    · omega
  · intro h9
    rw [h9]
    constructor
    · rw [if_pos (by omega)]
    · rfl

/-- C9 witness: the amended width rule at a concrete one-cell sheet. -/
theorem claim9_width_amended_witness :
    0 < numCols [[CellValue.str "ab".toList]] ∧
    (colMaxLen [[CellValue.str "ab".toList]] 0 ≠ 9 →
      colWidth [[CellValue.str "ab".toList]] 0 = specWidth [[CellValue.str "ab".toList]] 0) ∧
    (colMaxLen [[CellValue.str "ab".toList]] 0 = 9 →
      colWidth [[CellValue.str "ab".toList]] 0 = 10 ∧
        specWidth [[CellValue.str "ab".toList]] 0 = 11) :=
  ⟨by decide, claim9_width_amended [[CellValue.str "ab".toList]] 0 (by decide)⟩

/-- C9 counterexample: a column whose maximum content length is 9 (one
cell `"abcdefghi"`, no blank cell) gets width 10 from the code, while the
claimed formula `max(10, maxLen + 2)` gives 11. -/
theorem claim9_width_counterexample :
    downloadColumnWidths ⟨[("S".toList, [[CellValue.str "abcdefghi".toList]])]⟩ = [10] ∧
    specWidth [[CellValue.str "abcdefghi".toList]] 0 = 11 ∧ (10 : ℕ) ≠ 11 := by
  refine ⟨by decide, by decide, by decide⟩

/-- C10: the statement-by-statement replay of `filterWorkbookByNicknames`
leaves the three inputs untouched on every path, returning or throwing,
and its result agrees with the functional embedding. -/
theorem claim10_no_input_mutation : ∀ st : FilterSt,
    (filterRun st).1.workbook = st.workbook ∧
    (filterRun st).1.nicknames = st.nicknames ∧
    (filterRun st).1.nameMapping = st.nameMapping ∧
    (filterRun st).2 = filterWorkbookByNicknames st.workbook st.nicknames st.nameMapping := by
  intro st
  unfold filterRun filterWorkbookByNicknames
  by_cases hc : (sheetNames st.workbook).contains clubSheetName = true
  · have hm : clubSheetName ∈ sheetNames st.workbook := by simpa using hc
    by_cases hn : st.nicknames.isEmpty
    · simp [hc, hn, hm]
    · simp [hc, hn, hm]
  · have hm : ¬ clubSheetName ∈ sheetNames st.workbook := by simpa using hc
    simp [hc, hm]

/-- C1: the classifier matches a row to the first entry, in entry order,
whose lowercased nickname text is a substring of the row's lowercased
column-10 text, and a row matched by no entry produces no output row. -/
theorem claim1_first_substring_match : ∀ (ns : List NicknameWithLine), ns ≠ [] →
    ∀ (m : List (JStr × JStr)) (row : Row),
      matchingNickname ns (columnKText row) = firstSubstrMatch ns (columnKText row) ∧
      (processRow ns m row = none ↔
        ∀ e ∈ ns, ¬ (jsToLower e.nickname <:+: columnKText row)) := by
  intro ns _ m row
  have hpred : ∀ n : NicknameWithLine,
      jsIncludes (columnKText row) (jsToLower n.nickname) =
        decide (jsToLower n.nickname <:+: columnKText row) := by
    intro n
    by_cases h : jsToLower n.nickname <:+: columnKText row
    · rw [(jsIncludes_iff _ _).mpr h, decide_eq_true h]
    · have hf : jsIncludes (columnKText row) (jsToLower n.nickname) = false := by
        cases hb : jsIncludes (columnKText row) (jsToLower n.nickname)
        · rfl
        · exact absurd ((jsIncludes_iff _ _).mp hb) h
      rw [hf, decide_eq_false h]
  constructor
  · unfold matchingNickname firstSubstrMatch
    congr 1
    funext n
    exact hpred n
  · unfold processRow
    rw [Option.map_eq_none']
    unfold matchingNickname
    rw [List.find?_eq_none]
    constructor
    · intro h e he hinf
      exact h e he ((jsIncludes_iff _ _).mpr hinf)
    · intro h e he hb
      exact h e he ((jsIncludes_iff _ _).mp hb)

/-- C1 witness: with entries `["a", "ab"]` in that order and column-10
text `"abc"`, the code's matching agrees with the first-substring rule and
selects `"a"` (first match wins, substring not equality). -/
theorem claim1_first_substring_match_witness :
    ([⟨"a".toList, none⟩, ⟨"ab".toList, none⟩] : List NicknameWithLine) ≠ [] ∧
    matchingNickname [⟨"a".toList, none⟩, ⟨"ab".toList, none⟩]
        (columnKText (List.replicate 10 (CellValue.str []) ++ [CellValue.str "abc".toList])) =
      firstSubstrMatch [⟨"a".toList, none⟩, ⟨"ab".toList, none⟩]
        (columnKText (List.replicate 10 (CellValue.str []) ++ [CellValue.str "abc".toList])) ∧
    firstSubstrMatch [⟨"a".toList, none⟩, ⟨"ab".toList, none⟩]
        (columnKText (List.replicate 10 (CellValue.str []) ++ [CellValue.str "abc".toList])) =
      some ⟨"a".toList, none⟩ :=
  ⟨by decide,
    (claim1_first_substring_match _ (by decide) []
      (List.replicate 10 (CellValue.str []) ++ [CellValue.str "abc".toList])).1,
    by decide⟩

end NickFilter

namespace NickFilter

theorem takeWhile_dropWhile_mem {c : Char} {l : JStr} (h : c ∈ l) :
    ∃ rest, l.dropWhile (fun x => x ≠ c) = c :: rest ∧
      l = l.takeWhile (fun x => x ≠ c) ++ c :: rest := by
  induction l with
  | nil => exact absurd h (List.not_mem_nil c)
  | cons x xs ih =>
    by_cases hx : x = c
    · subst hx
      refine ⟨xs, ?_, ?_⟩
      · rw [List.dropWhile_cons]
        simp
      · rw [List.takeWhile_cons]
        simp
    · have hc : c ∈ xs := by
        rcases List.mem_cons.mp h with h' | h'
        · exact absurd h'.symm hx
        · exact h'
      obtain ⟨rest, hd, ht⟩ := ih hc
      have hpx : decide (x ≠ c) = true := by simp [hx]
      refine ⟨rest, ?_, ?_⟩
      · rw [List.dropWhile_cons, if_pos hpx]
        exact hd
      · rw [List.takeWhile_cons, if_pos hpx]
        simp only [List.cons_append]
        conv_lhs => rw [ht]

theorem takeWhile_not_mem (c : Char) (l : JStr) : c ∉ l.takeWhile (fun x => x ≠ c) := by
  intro hmem
  have := List.mem_takeWhile_imp hmem
  simp at this

/-- C6 (amended): a line containing `/` is split on every `/`; the
nickname is the trimmed text before the first `/`, while the line spec is
the trimmed text between the first and the second `/` only (segments
after a second `/` are discarded), not the entire text after the first
`/`. -/
theorem claim6_split_amended : ∀ line : JStr, '/' ∈ line →
    nicknamePart line = jsTrim (line.takeWhile (fun c => c ≠ '/')) ∧
    lineSpecPart line =
      jsTrim (((line.dropWhile (fun c => c ≠ '/')).drop 1).takeWhile (fun c => c ≠ '/')) := by
  intro line hmem
  obtain ⟨rest, hd, ht⟩ := takeWhile_dropWhile_mem hmem
  have hnmem : '/' ∉ line.takeWhile (fun x => x ≠ '/') := takeWhile_not_mem '/' line
  have hsplit : splitOnChar '/' line =
      line.takeWhile (fun x => x ≠ '/') :: splitOnChar '/' rest := by
    conv_lhs => rw [ht]
    exact splitOnChar_append rest hnmem
  have hdrop : (line.dropWhile (fun c => c ≠ '/')).drop 1 = rest := by
    rw [hd]
    rfl
  constructor
  · rw [nicknamePart, splitParts, hsplit]
    rfl
  · rw [lineSpecPart, splitParts, hsplit, hdrop]
    cases hsp : splitOnChar '/' rest with
    | nil => exact absurd hsp (splitOnChar_ne_nil '/' rest)
    | cons h t =>
      have hh := splitOnChar_head '/' rest
      rw [hsp] at hh
      simp only [List.getD_cons_zero] at hh
      simp only [List.map_cons, List.getD_cons_succ, List.getD_cons_zero]
      rw [hh]

/-- C6 witness: the amended split rule at the line `"a/1/2"`. -/
theorem claim6_split_amended_witness :
    '/' ∈ ("a/1/2".toList : JStr) ∧
    nicknamePart ("a/1/2".toList) =
      jsTrim (("a/1/2".toList).takeWhile (fun c => c ≠ '/')) ∧
    lineSpecPart ("a/1/2".toList) =
      jsTrim (((("a/1/2".toList).dropWhile (fun c => c ≠ '/')).drop 1).takeWhile
        (fun c => c ≠ '/')) :=
  ⟨by decide, (claim6_split_amended ("a/1/2".toList) (by decide)).1,
    (claim6_split_amended ("a/1/2".toList) (by decide)).2⟩

/-- C6 counterexample: for the line `"a/1/2"` the bound line spec is
`"1"`, not `"1/2"` as the claim states; the parsed entry is
`{a, line 1000}`. -/
theorem claim6_counterexample :
    lineSpecPart ("a/1/2".toList) = "1".toList ∧ ("1".toList : JStr) ≠ "1/2".toList ∧
    parseNicknameText ("a/1/2".toList) = [⟨"a".toList, some 1000⟩] := by
  refine ⟨by decide, by decide, by decide⟩

theorem jsTrim_cons_head {c : Char} (hws : c.isWhitespace = false) (l : JStr) :
    ∃ u, jsTrim (c :: l) = c :: u := by
  refine ⟨((l.reverse.dropWhile Char.isWhitespace)).reverse, ?_⟩
  unfold jsTrim
  rw [List.dropWhile_cons, hws]
  simp only [Bool.false_eq_true, if_false]
  rw [List.reverse_cons, dropWhile_append_singleton hws, List.reverse_append]
  rfl

theorem parseOneLine_slash_head (u : JStr) : parseOneLine ('/' :: u) = none := by
  have hc : ('/' :: u).contains '/' = true := by simp
  have hn : nicknamePart ('/' :: u) = [] := by
    rw [nicknamePart, splitParts]
    have hsp : splitOnChar '/' ('/' :: u) = [] :: splitOnChar '/' u := rfl
    rw [hsp]
    rfl
  rw [parseOneLine, if_pos hc, hn]
  rfl

/-- C7 (amended): a line consisting of a `/` followed by anything (for
example `"/123"`) produces no entry at all: the falsy empty nickname makes
the parser drop the line, numeric line spec included. -/
theorem claim7_empty_nickname_amended : ∀ rest : JStr, '\n' ∉ rest →
    parseNicknameText ('/' :: rest) = [] := by
  intro rest hrest
  have hnm : '\n' ∉ ('/' :: rest : JStr) := by
    rw [List.mem_cons]
    rintro (h | h)
    · exact absurd h (by decide)
    · exact hrest h
  have hsp : splitOnChar '\n' ('/' :: rest) = ['/' :: rest] := splitOnChar_not_mem hnm
  obtain ⟨u, hu⟩ := jsTrim_cons_head (by decide : ('/').isWhitespace = false) rest
  rw [parseNicknameText, hsp]
  simp only [List.map_cons, List.map_nil, hu]
  rw [List.filter_cons]
  simp only [List.isEmpty_cons, Bool.not_false, if_true]
  rw [List.filter_nil, List.filterMap_cons, parseOneLine_slash_head]
  rfl

/-- C7 witness: the amended no-entry rule at the input `"/123"`. -/
theorem claim7_empty_nickname_amended_witness :
    '\n' ∉ ("123".toList : JStr) ∧ parseNicknameText ('/' :: "123".toList) = [] :=
  ⟨by decide, claim7_empty_nickname_amended ("123".toList) (by decide)⟩

/-- C7 counterexample: `"/123"` parses to no entries at all, not to an
entry with an empty nickname and line 123000. -/
theorem claim7_counterexample :
    parseNicknameText ("/123".toList) = [] ∧
    ([] : List NicknameWithLine) ≠ [⟨[], some 123000⟩] := by
  refine ⟨by decide, by decide⟩

end NickFilter

namespace NickFilter

/-- C2: for a matched row with numeric balance `b`, the profit/loss cell
holds `balance - line` (or the balance alone without a line) rounded
toward zero, the message cell holds the template chosen by the sign of
that integer, and the bucket test reads its sign. -/
theorem claim2_profit_loss :
    ∀ (ns : List NicknameWithLine) (m : List (JStr × JStr)) (row : Row)
      (mn : NicknameWithLine) (b : ℚ),
      matchingNickname ns (columnKText row) = some mn →
      jsNumberOfCell (row.getD 11 (CellValue.num 0)) = some b →
      (buildRowData m row mn).getD 5 CellValue.nan =
        CellValue.num ((truncTowardZero (specProfitLoss b mn.line) : ℤ) : ℚ) ∧
      (buildRowData m row mn).getD 11 CellValue.nan =
        CellValue.str (messageChars (some (truncTowardZero (specProfitLoss b mn.line)))) ∧
      plGe0Cell ((buildRowData m row mn).getD 5 CellValue.nan) =
        decide (0 ≤ truncTowardZero (specProfitLoss b mn.line)) := by
  intro ns m row mn b _ hb
  have hpl : plCompute (jsNumberOfCell (row.getD 11 (CellValue.num 0))) mn.line =
      some (truncTowardZero (specProfitLoss b mn.line)) := by
    rw [hb]
    unfold plCompute specProfitLoss
    cases hl : mn.line with
    | none => simp only [jsRound_eq]
    | some l => simp only [ratSub_eq, jsRound_eq]
  have h5 : (buildRowData m row mn).getD 5 CellValue.nan =
      plCell (plCompute (jsNumberOfCell (row.getD 11 (CellValue.num 0))) mn.line) := rfl
  have h11 : (buildRowData m row mn).getD 11 CellValue.nan =
      CellValue.str (messageChars
        (plCompute (jsNumberOfCell (row.getD 11 (CellValue.num 0))) mn.line)) := rfl
  refine ⟨?_, ?_, ?_⟩
  · rw [h5, hpl]
    rfl
  · rw [h11, hpl]
  · rw [h5, hpl]
    show plGe0Cell (CellValue.num _) = _
    unfold plGe0Cell
    rw [decide_eq_decide]
    exact Int.cast_nonneg

/-- C2 witness: entry `{gus, line 5000}` against column-K `"gus"` and
column-L balance `4728` gives profit/loss `-272`, lands in the negative
bucket and gets the negative message template. -/
theorem claim2_profit_loss_witness :
    matchingNickname [⟨"gus".toList, some 5000⟩]
        (columnKText (List.replicate 10 (CellValue.str []) ++
          [CellValue.str "gus".toList, CellValue.num 4728])) =
      some ⟨"gus".toList, some 5000⟩ ∧
    jsNumberOfCell ((List.replicate 10 (CellValue.str []) ++
        [CellValue.str "gus".toList, CellValue.num 4728] : Row).getD 11 (CellValue.num 0)) =
      some 4728 ∧
    ((buildRowData [] (List.replicate 10 (CellValue.str []) ++
        [CellValue.str "gus".toList, CellValue.num 4728]) ⟨"gus".toList, some 5000⟩).getD 5
          CellValue.nan =
      CellValue.num ((truncTowardZero (specProfitLoss 4728 (some 5000)) : ℤ) : ℚ) ∧
    (buildRowData [] (List.replicate 10 (CellValue.str []) ++
        [CellValue.str "gus".toList, CellValue.num 4728]) ⟨"gus".toList, some 5000⟩).getD 11
          CellValue.nan =
      CellValue.str (messageChars (some (truncTowardZero (specProfitLoss 4728 (some 5000))))) ∧
    plGe0Cell ((buildRowData [] (List.replicate 10 (CellValue.str []) ++
        [CellValue.str "gus".toList, CellValue.num 4728]) ⟨"gus".toList, some 5000⟩).getD 5
          CellValue.nan) =
      decide (0 ≤ truncTowardZero (specProfitLoss 4728 (some 5000)))) ∧
    (buildRowData [] (List.replicate 10 (CellValue.str []) ++
        [CellValue.str "gus".toList, CellValue.num 4728]) ⟨"gus".toList, some 5000⟩).getD 5
          CellValue.nan = CellValue.num (-272) ∧
    (buildRowData [] (List.replicate 10 (CellValue.str []) ++
        [CellValue.str "gus".toList, CellValue.num 4728]) ⟨"gus".toList, some 5000⟩).getD 11
          CellValue.nan =
      CellValue.str ("Hei🙂 Saldo er -272, mer info kommer".toList) ∧
    plGe0Cell ((buildRowData [] (List.replicate 10 (CellValue.str []) ++
        [CellValue.str "gus".toList, CellValue.num 4728]) ⟨"gus".toList, some 5000⟩).getD 5
          CellValue.nan) = false :=
  ⟨by decide, by decide,
    claim2_profit_loss [⟨"gus".toList, some 5000⟩] []
      (List.replicate 10 (CellValue.str []) ++
        [CellValue.str "gus".toList, CellValue.num 4728])
      ⟨"gus".toList, some 5000⟩ 4728 (by decide) (by decide),
    by decide, by decide, by decide⟩

end NickFilter

namespace NickFilter

theorem insertSorted_perm (x : Row) (l : List Row) : (insertSorted x l).Perm (x :: l) := by
  induction l with
  | nil => exact List.Perm.refl _
  | cons y ys ih =>
    unfold insertSorted
    by_cases h : rowLt y x = true
    · rw [if_pos h]
      exact (List.Perm.cons y ih).trans (List.Perm.swap x y ys)
    · rw [if_neg h]

theorem sortRows_perm (l : List Row) : (sortRows l).Perm l := by
  induction l with
  | nil => exact List.Perm.refl _
  | cons x xs ih =>
    show (insertSorted x (sortRows xs)).Perm _
    exact (insertSorted_perm x (sortRows xs)).trans (List.Perm.cons x ih)

theorem insertSorted_decomp (x : Row) (l : List Row) :
    ∃ l₁ l₂, insertSorted x l = l₁ ++ x :: l₂ ∧ l = l₁ ++ l₂ ∧
      ∀ y ∈ l₁, rowLt y x = true := by
  induction l with
  | nil => exact ⟨[], [], rfl, rfl, by simp⟩
  | cons y ys ih =>
    by_cases h : rowLt y x = true
    · obtain ⟨l₁, l₂, h1, h2, h3⟩ := ih
      refine ⟨y :: l₁, l₂, ?_, ?_, ?_⟩
      · unfold insertSorted
        rw [if_pos h, h1]
        rfl
      · rw [List.cons_append, ← h2]
      · intro z hz
        rcases List.mem_cons.mp hz with rfl | hz'
        · exact h
        · exact h3 z hz'
    · refine ⟨[], y :: ys, ?_, rfl, by simp⟩
      unfold insertSorted
      rw [if_neg h]
      rfl

theorem rowLt_num {a b : Row} (h : rowLt a b = true) :
    ∃ qa qb : ℚ, keyCell a = CellValue.num qa ∧ keyCell b = CellValue.num qb ∧ qb < qa := by
  unfold rowLt at h
  cases hca : a.getD 5 CellValue.nan with
  | num qa =>
    cases hcb : b.getD 5 CellValue.nan with
    | num qb =>
      rw [hca, hcb] at h
      exact ⟨qa, qb, hca, hcb, of_decide_eq_true h⟩
    | str s => rw [hca, hcb] at h; exact absurd h (by simp)
    | nan => rw [hca, hcb] at h; exact absurd h (by simp)
  | str s => rw [hca] at h; exact absurd h (by cases hcb : b.getD 5 CellValue.nan <;> simp)
  | nan => rw [hca] at h; exact absurd h (by cases hcb : b.getD 5 CellValue.nan <;> simp)

theorem rowLt_iff_of_num {a b : Row} {qa qb : ℚ} (ha : keyCell a = CellValue.num qa)
    (hb : keyCell b = CellValue.num qb) : rowLt a b = true ↔ qb < qa := by
  unfold keyCell at ha hb
  unfold rowLt
  rw [ha, hb]
  simp

theorem filterPL_insertSorted (k : ℚ) (x : Row) (l : List Row) :
    filterPL k (insertSorted x l) = filterPL k (x :: l) := by
  obtain ⟨l₁, l₂, h1, h2, h3⟩ := insertSorted_decomp x l
  rw [h1, h2]
  unfold filterPL
  rw [List.filter_append, List.filter_cons, List.filter_cons, List.filter_append]
  by_cases hx : keyCell x = CellValue.num k
  · have hl₁ : l₁.filter (fun r => decide (keyCell r = CellValue.num k)) = [] := by
      rw [List.filter_eq_nil_iff]
      intro y hy
      obtain ⟨qa, qb, hca, hcb, hlt⟩ := rowLt_num (h3 y hy)
      rw [hx] at hcb
      injection hcb with hk
      simp only [hca, decide_eq_true_eq]
      intro hc
      injection hc with hc'
      rw [hk] at hc'
      rw [hc'] at hlt
      exact lt_irrefl qb hlt
    simp [hl₁, hx]
  · simp [hx]

theorem filterPL_sortRows (k : ℚ) (l : List Row) : filterPL k (sortRows l) = filterPL k l := by
  induction l with
  | nil => rfl
  | cons x xs ih =>
    show filterPL k (insertSorted x (sortRows xs)) = _
    rw [filterPL_insertSorted]
    unfold filterPL at ih ⊢
    rw [List.filter_cons, List.filter_cons, ih]

theorem insertSorted_pairwise {x : Row} {l : List Row} (hx : NumKey x)
    (hl : ∀ y ∈ l, NumKey y) (h : List.Pairwise (fun a b => keyQ b ≤ keyQ a) l) :
    List.Pairwise (fun a b => keyQ b ≤ keyQ a) (insertSorted x l) := by
  induction l with
  | nil => simp [insertSorted]
  | cons y ys ih =>
    have hy := hl y (List.mem_cons_self y ys)
    have hys : ∀ z ∈ ys, NumKey z := fun z hz => hl z (List.mem_cons_of_mem _ hz)
    obtain ⟨hyall, hpys⟩ := List.pairwise_cons.mp h
    obtain ⟨qx, hqx⟩ := hx
    obtain ⟨qy, hqy⟩ := hy
    have hkx : keyQ x = qx := by unfold keyQ; rw [hqx]
    have hky : keyQ y = qy := by unfold keyQ; rw [hqy]
    unfold insertSorted
    by_cases hlt : rowLt y x = true
    · rw [if_pos hlt]
      refine List.Pairwise.cons ?_ (ih hys hpys)
      intro z hz
      have hz' := (insertSorted_perm x ys).mem_iff.mp hz
      rcases List.mem_cons.mp hz' with rfl | hz''
      · have := (rowLt_iff_of_num hqy hqx).mp hlt
        rw [hkx, hky]
        exact le_of_lt this
      · exact hyall z hz''
    · rw [if_neg hlt]
      have hxy : keyQ y ≤ keyQ x := by
        rw [hkx, hky]
        by_contra hc
        exact hlt ((rowLt_iff_of_num hqy hqx).mpr (not_le.mp hc))
      refine List.Pairwise.cons ?_ h
      intro z hz
      rcases List.mem_cons.mp hz with rfl | hz'
      · exact hxy
      · exact le_trans (hyall z hz') hxy

theorem sortRows_pairwise {l : List Row} (hl : ∀ y ∈ l, NumKey y) :
    List.Pairwise (fun a b => keyQ b ≤ keyQ a) (sortRows l) := by
  induction l with
  | nil => exact List.Pairwise.nil
  | cons x xs ih =>
    have hxs : ∀ y ∈ xs, NumKey y := fun y hy => hl y (List.mem_cons_of_mem _ hy)
    show List.Pairwise _ (insertSorted x (sortRows xs))
    refine insertSorted_pairwise (hl x (List.mem_cons_self x xs)) ?_ (ih hxs)
    intro y hy
    exact hxs y ((sortRows_perm xs).mem_iff.mp hy)

theorem classifyRows_eq (ns : List NicknameWithLine) (m : List (JStr × JStr))
    (rows : List Row) :
    classifyRows ns m rows =
      ((rows.filterMap (processRow ns m)).filter (fun r => plGe0Cell (keyCell r)),
        (rows.filterMap (processRow ns m)).filter (fun r => !plGe0Cell (keyCell r))) := by
  have key : ∀ (rows : List Row) (acc : List Row × List Row),
      rows.foldl (classifyStep ns m) acc =
        (acc.1 ++ (rows.filterMap (processRow ns m)).filter (fun r => plGe0Cell (keyCell r)),
          acc.2 ++ (rows.filterMap (processRow ns m)).filter
            (fun r => !plGe0Cell (keyCell r))) := by
    intro rows
    induction rows with
    | nil => intro acc; simp
    | cons row rest ih =>
      intro acc
      cases hp : processRow ns m row with
      | none =>
        have hfm : (row :: rest).filterMap (processRow ns m) =
            rest.filterMap (processRow ns m) := by
          rw [List.filterMap_cons, hp]
        rw [List.foldl_cons, hfm]
        have hstep : classifyStep ns m acc row = acc := by
          simp [classifyStep, hp]
        rw [hstep, ih]
      | some rd =>
        have hfm : (row :: rest).filterMap (processRow ns m) =
            rd :: rest.filterMap (processRow ns m) := by
          rw [List.filterMap_cons, hp]
        rw [List.foldl_cons, hfm, ih]
        by_cases hge : plGe0Cell (rd.getD 5 CellValue.nan) = true
        · have hge' : plGe0Cell (keyCell rd) = true := hge
          have hgeE : plGe0Cell ((rd[5]?).getD CellValue.nan) = true := by simpa using hge
          simp [classifyStep, hp, hge, hge', hgeE, List.filter_cons, List.append_assoc]
        · have hgeD : plGe0Cell (rd.getD 5 CellValue.nan) = false := by
            cases hb : plGe0Cell (rd.getD 5 CellValue.nan)
            · rfl
            · exact absurd hb hge
          have hge' : plGe0Cell (keyCell rd) = false := hgeD
          have hgeE : plGe0Cell ((rd[5]?).getD CellValue.nan) = false := by simpa using hgeD
          simp [classifyStep, hp, hgeD, hge', hgeE, List.filter_cons, List.append_assoc]
  have := key rows ([], [])
  simpa [classifyRows] using this

theorem processRow_length {ns : List NicknameWithLine} {m : List (JStr × JStr)}
    {row r : Row} (h : processRow ns m row = some r) : r.length = 12 := by
  obtain ⟨mn, _, rfl⟩ := Option.map_eq_some'.mp h
  rfl

theorem processRow_numKey {ns : List NicknameWithLine} {m : List (JStr × JStr)}
    {row r : Row} (h : processRow ns m row = some r)
    (hb : (jsNumberOfCell (row.getD 11 (CellValue.num 0))).isSome = true) :
    ∃ z : ℤ, keyCell r = CellValue.num (z : ℚ) := by
  obtain ⟨mn, _, rfl⟩ := Option.map_eq_some'.mp h
  obtain ⟨b, hb'⟩ := Option.isSome_iff_exists.mp hb
  have hkey : keyCell (buildRowData m row mn) =
      plCell (plCompute (jsNumberOfCell (row.getD 11 (CellValue.num 0))) mn.line) := rfl
  rw [hkey, hb']
  cases mn.line with
  | none => exact ⟨_, rfl⟩
  | some l => exact ⟨_, rfl⟩

end NickFilter

namespace NickFilter

/-- C3: matched rows split into the `profitLoss >= 0` and `profitLoss < 0`
buckets in encounter order; sorting each bucket is a permutation, yields
profit/loss descending, and never reorders rows of equal profit/loss
(stability stated as invariance of every equal-key sublist). -/
theorem claim3_buckets_sorted_stable :
    ∀ (ns : List NicknameWithLine) (m : List (JStr × JStr)) (rows : List Row),
      (∀ row ∈ rows, (jsNumberOfCell (row.getD 11 (CellValue.num 0))).isSome = true) →
      (classifyRows ns m rows).1 =
          (rows.filterMap (processRow ns m)).filter (fun r => plGe0Cell (keyCell r)) ∧
      (classifyRows ns m rows).2 =
          (rows.filterMap (processRow ns m)).filter (fun r => !plGe0Cell (keyCell r)) ∧
      (∀ r ∈ (classifyRows ns m rows).1,
        ∃ z : ℤ, keyCell r = CellValue.num (z : ℚ) ∧ 0 ≤ z) ∧
      (∀ r ∈ (classifyRows ns m rows).2,
        ∃ z : ℤ, keyCell r = CellValue.num (z : ℚ) ∧ z < 0) ∧
      (sortRows (classifyRows ns m rows).1).Perm (classifyRows ns m rows).1 ∧
      (sortRows (classifyRows ns m rows).2).Perm (classifyRows ns m rows).2 ∧
      List.Pairwise (fun a b => keyQ b ≤ keyQ a) (sortRows (classifyRows ns m rows).1) ∧
      List.Pairwise (fun a b => keyQ b ≤ keyQ a) (sortRows (classifyRows ns m rows).2) ∧
      (∀ k : ℚ, filterPL k (sortRows (classifyRows ns m rows).1) =
          filterPL k (classifyRows ns m rows).1) ∧
      (∀ k : ℚ, filterPL k (sortRows (classifyRows ns m rows).2) =
          filterPL k (classifyRows ns m rows).2) := by
  intro ns m rows hb
  have hceq := classifyRows_eq ns m rows
  have h1 : (classifyRows ns m rows).1 =
      (rows.filterMap (processRow ns m)).filter (fun r => plGe0Cell (keyCell r)) := by
    rw [hceq]
  have h2 : (classifyRows ns m rows).2 =
      (rows.filterMap (processRow ns m)).filter (fun r => !plGe0Cell (keyCell r)) := by
    rw [hceq]
  have hmem : ∀ r ∈ rows.filterMap (processRow ns m),
      ∃ z : ℤ, keyCell r = CellValue.num (z : ℚ) := by
    intro r hr
    obtain ⟨row, hrow, hp⟩ := List.mem_filterMap.mp hr
    exact processRow_numKey hp (hb row hrow)
  have hpos : ∀ r ∈ (classifyRows ns m rows).1,
      ∃ z : ℤ, keyCell r = CellValue.num (z : ℚ) ∧ 0 ≤ z := by
    intro r hr
    rw [h1] at hr
    obtain ⟨hr', hf⟩ := List.mem_filter.mp hr
    obtain ⟨z, hz⟩ := hmem r hr'
    refine ⟨z, hz, ?_⟩
    rw [hz] at hf
    have : (0 : ℚ) ≤ (z : ℚ) := of_decide_eq_true hf
    exact_mod_cast this
  have hneg : ∀ r ∈ (classifyRows ns m rows).2,
      ∃ z : ℤ, keyCell r = CellValue.num (z : ℚ) ∧ z < 0 := by
    intro r hr
    rw [h2] at hr
    obtain ⟨hr', hf⟩ := List.mem_filter.mp hr
    obtain ⟨z, hz⟩ := hmem r hr'
    refine ⟨z, hz, ?_⟩
    rw [hz] at hf
    simp only [Bool.not_eq_true'] at hf
    have : ¬ (0 : ℚ) ≤ (z : ℚ) := of_decide_eq_false hf
    have : (z : ℚ) < 0 := lt_of_not_ge this
    exact_mod_cast this
  refine ⟨h1, h2, hpos, hneg, sortRows_perm _, sortRows_perm _, ?_, ?_, ?_, ?_⟩
  · exact sortRows_pairwise (fun y hy => (hpos y hy).elim (fun z hz => ⟨(z : ℚ), hz.1⟩))
  · exact sortRows_pairwise (fun y hy => (hneg y hy).elim (fun z hz => ⟨(z : ℚ), hz.1⟩))
  · intro k
    exact filterPL_sortRows k _
  · intro k
    exact filterPL_sortRows k _

end NickFilter

namespace NickFilter

/-- C4 (amended): for every workbook containing the target sheet and every
NON-EMPTY nickname-entry list, the output consists of the main table
followed by a 10-blank-row spacer and exactly three transfer sub-tables,
each an `Avsender` header row over exactly 10 blank 5-column data rows,
consecutive sub-tables separated by 2 blank rows; the transfer header
occurs exactly 3 times in the whole sheet.  (The original claim also
covered the empty nickname list, where the code instead emits a completely
empty sheet — see the counterexample.) -/
theorem claim4_transfer_tables :
    ∀ (wb : Workbook) (ns : List NicknameWithLine) (m : List (JStr × JStr)),
      (sheetNames wb).contains clubSheetName = true → ns ≠ [] →
      ∃ rows pos neg,
        filterWorkbookByNicknames wb ns m = Except.ok ⟨[(clubSheetName, rows)]⟩ ∧
        rows = [mainHeaders] ++ pos ++ [[], []] ++ [mainHeaders] ++ neg ++
          List.replicate 10 [] ++
          (transferHeadersRow :: List.replicate 10 blank5) ++ [[], []] ++
          (transferHeadersRow :: List.replicate 10 blank5) ++ [[], []] ++
          (transferHeadersRow :: List.replicate 10 blank5) ∧
        rows.count transferHeadersRow = 3 := by
  intro wb ns m h1 h2
  have hne : ns.isEmpty = false := by
    cases ns with
    | nil => exact absurd rfl h2
    | cons x xs => rfl
  have hmem12 : ∀ (l : List Row), ∀ r ∈ l.filterMap (processRow ns m), r.length = 12 := by
    intro l r hr
    obtain ⟨row, _, hp⟩ := List.mem_filterMap.mp hr
    exact processRow_length hp
  have hnotTH : ∀ (l : List Row) (r : Row), r ∈ l.filterMap (processRow ns m) →
      r ≠ transferHeadersRow := by
    intro l r hr heq
    have h12 := hmem12 l r hr
    rw [heq] at h12
    exact absurd h12 (by decide)
  have hcp : (sortRows (classifyRows ns m
      (((findSheet wb clubSheetName).getD []).drop 3)).1).count transferHeadersRow = 0 := by
    rw [List.count_eq_zero]
    intro hmem
    have hmem' := (sortRows_perm _).mem_iff.mp hmem
    rw [classifyRows_eq] at hmem'
    have := (List.mem_filter.mp hmem').1
    exact hnotTH _ _ this rfl
  have hcn : (sortRows (classifyRows ns m
      (((findSheet wb clubSheetName).getD []).drop 3)).2).count transferHeadersRow = 0 := by
    rw [List.count_eq_zero]
    intro hmem
    have hmem' := (sortRows_perm _).mem_iff.mp hmem
    rw [classifyRows_eq] at hmem'
    have := (List.mem_filter.mp hmem').1
    exact hnotTH _ _ this rfl
  refine ⟨combinedData
      (sortRows (classifyRows ns m (((findSheet wb clubSheetName).getD []).drop 3)).1)
      (sortRows (classifyRows ns m (((findSheet wb clubSheetName).getD []).drop 3)).2),
    sortRows (classifyRows ns m (((findSheet wb clubSheetName).getD []).drop 3)).1,
    sortRows (classifyRows ns m (((findSheet wb clubSheetName).getD []).drop 3)).2,
    ?_, rfl, ?_⟩
  · simp only [filterWorkbookByNicknames, if_pos h1, hne, Bool.false_eq_true, if_false]
  · have e1 : ([mainHeaders] : List Row).count transferHeadersRow = 0 := by decide
    have e2 : ([[], []] : List Row).count transferHeadersRow = 0 := by decide
    have e3 : (List.replicate 10 ([] : Row)).count transferHeadersRow = 0 := by decide
    have e4 : ((transferHeadersRow :: List.replicate 10 blank5) : List Row).count
        transferHeadersRow = 1 := by decide
    unfold combinedData
    simp only [List.count_append, e1, e2, e3, e4, hcp, hcn]

/-- C4 witness: the amended statement at a concrete workbook with the
target sheet and a singleton nickname list. -/
theorem claim4_transfer_tables_witness :
    (sheetNames ⟨[(clubSheetName, [[CellValue.str "x".toList]])]⟩).contains clubSheetName
        = true ∧
    ([⟨"a".toList, none⟩] : List NicknameWithLine) ≠ [] ∧
    ∃ rows pos neg,
      filterWorkbookByNicknames ⟨[(clubSheetName, [[CellValue.str "x".toList]])]⟩
          [⟨"a".toList, none⟩] [] = Except.ok ⟨[(clubSheetName, rows)]⟩ ∧
      rows = [mainHeaders] ++ pos ++ [[], []] ++ [mainHeaders] ++ neg ++
        List.replicate 10 [] ++
        (transferHeadersRow :: List.replicate 10 blank5) ++ [[], []] ++
        (transferHeadersRow :: List.replicate 10 blank5) ++ [[], []] ++
        (transferHeadersRow :: List.replicate 10 blank5) ∧
      rows.count transferHeadersRow = 3 :=
  ⟨by decide, by decide,
    claim4_transfer_tables ⟨[(clubSheetName, [[CellValue.str "x".toList]])]⟩
      [⟨"a".toList, none⟩] [] (by decide) (by decide)⟩

/-- C4 counterexample: the same workbook with the EMPTY nickname list
produces a completely empty output sheet — zero transfer sub-tables, not
three — so the claim fails as quantified over every nickname list. -/
theorem claim4_counterexample :
    (sheetNames ⟨[(clubSheetName, [[CellValue.str "x".toList]])]⟩).contains clubSheetName
        = true ∧
    filterWorkbookByNicknames ⟨[(clubSheetName, [[CellValue.str "x".toList]])]⟩ [] [] =
      Except.ok ⟨[(clubSheetName, [])]⟩ ∧
    ([] : List Row).count transferHeadersRow = 0 ∧ (0 : ℕ) ≠ 3 := by
  refine ⟨by decide, by decide, by decide, by decide⟩

end NickFilter

namespace NickFilter

/-- C3 witness: four matched rows with balances 5, 7, 5 and -1 (two equal
keys among them); the bucket, sortedness and stability conclusions hold,
and concretely the positive bucket sorts to a2, a1, a3 — the tied rows a1
and a3 keeping their encounter order — while a4 forms the negative
bucket. -/
theorem claim3_buckets_sorted_stable_witness :
    (∀ row ∈ ([List.replicate 10 (CellValue.str []) ++ [CellValue.str "a1".toList, CellValue.num 5],
      List.replicate 10 (CellValue.str []) ++ [CellValue.str "a2".toList, CellValue.num 7],
      List.replicate 10 (CellValue.str []) ++ [CellValue.str "a3".toList, CellValue.num 5],
      List.replicate 10 (CellValue.str []) ++ [CellValue.str "a4".toList, CellValue.num (-1)]] : List Row),
      (jsNumberOfCell (row.getD 11 (CellValue.num 0))).isSome = true) ∧
    ((classifyRows [⟨"a".toList, none⟩] ([] : List (JStr × JStr)) ([List.replicate 10 (CellValue.str []) ++ [CellValue.str "a1".toList, CellValue.num 5],
      List.replicate 10 (CellValue.str []) ++ [CellValue.str "a2".toList, CellValue.num 7],
      List.replicate 10 (CellValue.str []) ++ [CellValue.str "a3".toList, CellValue.num 5],
      List.replicate 10 (CellValue.str []) ++ [CellValue.str "a4".toList, CellValue.num (-1)]])).1 =
        (([List.replicate 10 (CellValue.str []) ++ [CellValue.str "a1".toList, CellValue.num 5],
      List.replicate 10 (CellValue.str []) ++ [CellValue.str "a2".toList, CellValue.num 7],
      List.replicate 10 (CellValue.str []) ++ [CellValue.str "a3".toList, CellValue.num 5],
      List.replicate 10 (CellValue.str []) ++ [CellValue.str "a4".toList, CellValue.num (-1)]] : List Row).filterMap (processRow [⟨"a".toList, none⟩] ([] : List (JStr × JStr)))).filter
          (fun r => plGe0Cell (keyCell r)) ∧
      (classifyRows [⟨"a".toList, none⟩] ([] : List (JStr × JStr)) ([List.replicate 10 (CellValue.str []) ++ [CellValue.str "a1".toList, CellValue.num 5],
      List.replicate 10 (CellValue.str []) ++ [CellValue.str "a2".toList, CellValue.num 7],
      List.replicate 10 (CellValue.str []) ++ [CellValue.str "a3".toList, CellValue.num 5],
      List.replicate 10 (CellValue.str []) ++ [CellValue.str "a4".toList, CellValue.num (-1)]])).2 =
        (([List.replicate 10 (CellValue.str []) ++ [CellValue.str "a1".toList, CellValue.num 5],
      List.replicate 10 (CellValue.str []) ++ [CellValue.str "a2".toList, CellValue.num 7],
      List.replicate 10 (CellValue.str []) ++ [CellValue.str "a3".toList, CellValue.num 5],
      List.replicate 10 (CellValue.str []) ++ [CellValue.str "a4".toList, CellValue.num (-1)]] : List Row).filterMap (processRow [⟨"a".toList, none⟩] ([] : List (JStr × JStr)))).filter
          (fun r => !plGe0Cell (keyCell r)) ∧
      (∀ r ∈ (classifyRows [⟨"a".toList, none⟩] ([] : List (JStr × JStr)) ([List.replicate 10 (CellValue.str []) ++ [CellValue.str "a1".toList, CellValue.num 5],
      List.replicate 10 (CellValue.str []) ++ [CellValue.str "a2".toList, CellValue.num 7],
      List.replicate 10 (CellValue.str []) ++ [CellValue.str "a3".toList, CellValue.num 5],
      List.replicate 10 (CellValue.str []) ++ [CellValue.str "a4".toList, CellValue.num (-1)]])).1,
        ∃ z : ℤ, keyCell r = CellValue.num (z : ℚ) ∧ 0 ≤ z) ∧
      (∀ r ∈ (classifyRows [⟨"a".toList, none⟩] ([] : List (JStr × JStr)) ([List.replicate 10 (CellValue.str []) ++ [CellValue.str "a1".toList, CellValue.num 5],
      List.replicate 10 (CellValue.str []) ++ [CellValue.str "a2".toList, CellValue.num 7],
      List.replicate 10 (CellValue.str []) ++ [CellValue.str "a3".toList, CellValue.num 5],
      List.replicate 10 (CellValue.str []) ++ [CellValue.str "a4".toList, CellValue.num (-1)]])).2,
        ∃ z : ℤ, keyCell r = CellValue.num (z : ℚ) ∧ z < 0) ∧
      (sortRows (classifyRows [⟨"a".toList, none⟩] ([] : List (JStr × JStr)) ([List.replicate 10 (CellValue.str []) ++ [CellValue.str "a1".toList, CellValue.num 5],
      List.replicate 10 (CellValue.str []) ++ [CellValue.str "a2".toList, CellValue.num 7],
      List.replicate 10 (CellValue.str []) ++ [CellValue.str "a3".toList, CellValue.num 5],
      List.replicate 10 (CellValue.str []) ++ [CellValue.str "a4".toList, CellValue.num (-1)]])).1).Perm (classifyRows [⟨"a".toList, none⟩] ([] : List (JStr × JStr)) ([List.replicate 10 (CellValue.str []) ++ [CellValue.str "a1".toList, CellValue.num 5],
      List.replicate 10 (CellValue.str []) ++ [CellValue.str "a2".toList, CellValue.num 7],
      List.replicate 10 (CellValue.str []) ++ [CellValue.str "a3".toList, CellValue.num 5],
      List.replicate 10 (CellValue.str []) ++ [CellValue.str "a4".toList, CellValue.num (-1)]])).1 ∧
      (sortRows (classifyRows [⟨"a".toList, none⟩] ([] : List (JStr × JStr)) ([List.replicate 10 (CellValue.str []) ++ [CellValue.str "a1".toList, CellValue.num 5],
      List.replicate 10 (CellValue.str []) ++ [CellValue.str "a2".toList, CellValue.num 7],
      List.replicate 10 (CellValue.str []) ++ [CellValue.str "a3".toList, CellValue.num 5],
      List.replicate 10 (CellValue.str []) ++ [CellValue.str "a4".toList, CellValue.num (-1)]])).2).Perm (classifyRows [⟨"a".toList, none⟩] ([] : List (JStr × JStr)) ([List.replicate 10 (CellValue.str []) ++ [CellValue.str "a1".toList, CellValue.num 5],
      List.replicate 10 (CellValue.str []) ++ [CellValue.str "a2".toList, CellValue.num 7],
      List.replicate 10 (CellValue.str []) ++ [CellValue.str "a3".toList, CellValue.num 5],
      List.replicate 10 (CellValue.str []) ++ [CellValue.str "a4".toList, CellValue.num (-1)]])).2 ∧
      List.Pairwise (fun a b => keyQ b ≤ keyQ a) (sortRows (classifyRows [⟨"a".toList, none⟩] ([] : List (JStr × JStr)) ([List.replicate 10 (CellValue.str []) ++ [CellValue.str "a1".toList, CellValue.num 5],
      List.replicate 10 (CellValue.str []) ++ [CellValue.str "a2".toList, CellValue.num 7],
      List.replicate 10 (CellValue.str []) ++ [CellValue.str "a3".toList, CellValue.num 5],
      List.replicate 10 (CellValue.str []) ++ [CellValue.str "a4".toList, CellValue.num (-1)]])).1) ∧
      List.Pairwise (fun a b => keyQ b ≤ keyQ a) (sortRows (classifyRows [⟨"a".toList, none⟩] ([] : List (JStr × JStr)) ([List.replicate 10 (CellValue.str []) ++ [CellValue.str "a1".toList, CellValue.num 5],
      List.replicate 10 (CellValue.str []) ++ [CellValue.str "a2".toList, CellValue.num 7],
      List.replicate 10 (CellValue.str []) ++ [CellValue.str "a3".toList, CellValue.num 5],
      List.replicate 10 (CellValue.str []) ++ [CellValue.str "a4".toList, CellValue.num (-1)]])).2) ∧
      (∀ k : ℚ, filterPL k (sortRows (classifyRows [⟨"a".toList, none⟩] ([] : List (JStr × JStr)) ([List.replicate 10 (CellValue.str []) ++ [CellValue.str "a1".toList, CellValue.num 5],
      List.replicate 10 (CellValue.str []) ++ [CellValue.str "a2".toList, CellValue.num 7],
      List.replicate 10 (CellValue.str []) ++ [CellValue.str "a3".toList, CellValue.num 5],
      List.replicate 10 (CellValue.str []) ++ [CellValue.str "a4".toList, CellValue.num (-1)]])).1) = filterPL k (classifyRows [⟨"a".toList, none⟩] ([] : List (JStr × JStr)) ([List.replicate 10 (CellValue.str []) ++ [CellValue.str "a1".toList, CellValue.num 5],
      List.replicate 10 (CellValue.str []) ++ [CellValue.str "a2".toList, CellValue.num 7],
      List.replicate 10 (CellValue.str []) ++ [CellValue.str "a3".toList, CellValue.num 5],
      List.replicate 10 (CellValue.str []) ++ [CellValue.str "a4".toList, CellValue.num (-1)]])).1) ∧
      (∀ k : ℚ, filterPL k (sortRows (classifyRows [⟨"a".toList, none⟩] ([] : List (JStr × JStr)) ([List.replicate 10 (CellValue.str []) ++ [CellValue.str "a1".toList, CellValue.num 5],
      List.replicate 10 (CellValue.str []) ++ [CellValue.str "a2".toList, CellValue.num 7],
      List.replicate 10 (CellValue.str []) ++ [CellValue.str "a3".toList, CellValue.num 5],
      List.replicate 10 (CellValue.str []) ++ [CellValue.str "a4".toList, CellValue.num (-1)]])).2) = filterPL k (classifyRows [⟨"a".toList, none⟩] ([] : List (JStr × JStr)) ([List.replicate 10 (CellValue.str []) ++ [CellValue.str "a1".toList, CellValue.num 5],
      List.replicate 10 (CellValue.str []) ++ [CellValue.str "a2".toList, CellValue.num 7],
      List.replicate 10 (CellValue.str []) ++ [CellValue.str "a3".toList, CellValue.num 5],
      List.replicate 10 (CellValue.str []) ++ [CellValue.str "a4".toList, CellValue.num (-1)]])).2)) ∧
    (sortRows (classifyRows [⟨"a".toList, none⟩] ([] : List (JStr × JStr)) ([List.replicate 10 (CellValue.str []) ++ [CellValue.str "a1".toList, CellValue.num 5],
      List.replicate 10 (CellValue.str []) ++ [CellValue.str "a2".toList, CellValue.num 7],
      List.replicate 10 (CellValue.str []) ++ [CellValue.str "a3".toList, CellValue.num 5],
      List.replicate 10 (CellValue.str []) ++ [CellValue.str "a4".toList, CellValue.num (-1)]])).1).map (fun r => r.getD 0 CellValue.nan) =
      [CellValue.str "a2".toList, CellValue.str "a1".toList, CellValue.str "a3".toList] ∧
    (sortRows (classifyRows [⟨"a".toList, none⟩] ([] : List (JStr × JStr)) ([List.replicate 10 (CellValue.str []) ++ [CellValue.str "a1".toList, CellValue.num 5],
      List.replicate 10 (CellValue.str []) ++ [CellValue.str "a2".toList, CellValue.num 7],
      List.replicate 10 (CellValue.str []) ++ [CellValue.str "a3".toList, CellValue.num 5],
      List.replicate 10 (CellValue.str []) ++ [CellValue.str "a4".toList, CellValue.num (-1)]])).2).map (fun r => r.getD 0 CellValue.nan) =
      [CellValue.str "a4".toList] :=
  ⟨by decide,
    claim3_buckets_sorted_stable [⟨"a".toList, none⟩] ([] : List (JStr × JStr)) ([List.replicate 10 (CellValue.str []) ++ [CellValue.str "a1".toList, CellValue.num 5],
      List.replicate 10 (CellValue.str []) ++ [CellValue.str "a2".toList, CellValue.num 7],
      List.replicate 10 (CellValue.str []) ++ [CellValue.str "a3".toList, CellValue.num 5],
      List.replicate 10 (CellValue.str []) ++ [CellValue.str "a4".toList, CellValue.num (-1)]]) (by decide),
    by decide, by decide⟩

end NickFilter

namespace NickFilter

theorem contains_false_of_not_mem {c : Char} {l : JStr} (h : c ∉ l) : l.contains c = false := by
  cases hb : l.contains c
  · rfl
  · exact absurd (by simpa using hb) h

theorem contains_true_of_mem {c : Char} {l : JStr} (h : c ∈ l) : l.contains c = true := by
  simpa using h

theorem parseOneLine_append_slash {n s : JStr} (hn1 : jsTrim n = n) (hn2 : n ≠ [])
    (hn3 : '/' ∉ n) (hs1 : jsTrim s = s) (hs2 : '/' ∉ s) :
    parseOneLine (n ++ '/' :: s) =
      (match jsParseFloat (replaceFirstChar ',' '.' s) with
        | some v => some ⟨n, some (mulThousand v)⟩
        | none => some ⟨n, none⟩) := by
  have hc : (n ++ '/' :: s).contains '/' = true :=
    contains_true_of_mem (by simp)
  have hsplit : splitOnChar '/' (n ++ '/' :: s) = [n, s] := by
    rw [splitOnChar_append s hn3, splitOnChar_not_mem hs2]
  have hparts : splitParts (n ++ '/' :: s) = [n, s] := by
    rw [splitParts, hsplit]
    simp [hn1, hs1]
  have hnick : nicknamePart (n ++ '/' :: s) = n := by
    rw [nicknamePart, hparts]
    rfl
  have hspec : lineSpecPart (n ++ '/' :: s) = s := by
    rw [lineSpecPart, hparts]
    rfl
  rw [parseOneLine, if_pos hc, hnick, hspec]
  have hempty : n.isEmpty = false := by
    cases n with
    | nil => exact absurd rfl hn2
    | cons x xs => rfl
  simp [hempty]

theorem parseNicknameText_single {l : JStr} (h : '\n' ∉ l) :
    parseNicknameText l =
      (if (jsTrim l).isEmpty then [] else (parseOneLine (jsTrim l)).toList) := by
  rw [parseNicknameText, splitOnChar_not_mem h]
  simp only [List.map_cons, List.map_nil, List.filter_cons]
  by_cases he : (jsTrim l).isEmpty
  · rw [he]
    simp
  · have he' : (jsTrim l).isEmpty = false := by
      cases hb : (jsTrim l).isEmpty
      · rfl
      · exact absurd hb he
    rw [he']
    simp only [Bool.not_false, if_true, List.filter_nil, List.filterMap_cons, List.filterMap_nil]
    cases hp : parseOneLine (jsTrim l) <;> simp [he']

theorem parseNicknameText_append_line {l : JStr} (t : JStr) (h : '\n' ∉ l) :
    parseNicknameText (l ++ '\n' :: t) = parseNicknameText l ++ parseNicknameText t := by
  rw [parseNicknameText, splitOnChar_append t h]
  rw [parseNicknameText_single h]
  simp only [List.map_cons, List.filter_cons]
  by_cases he : (jsTrim l).isEmpty
  · rw [he]
    simp only [Bool.not_true, Bool.false_eq_true, if_false]
    rfl
  · have he' : (jsTrim l).isEmpty = false := by
      cases hb : (jsTrim l).isEmpty
      · rfl
      · exact absurd hb he
    rw [he']
    simp only [Bool.not_false, if_true, List.filterMap_cons]
    cases hp : parseOneLine (jsTrim l) <;> simp [parseNicknameText]

theorem renderEntry_line_chars {e : NicknameWithLine} {k : ℤ}
    (hq : e.line = some (1000 * (k : ℚ))) :
    renderEntry e = e.nickname ++ '/' :: intToChars k := by
  rw [renderEntry, hq]
  have hval : divThousand (1000 * (k : ℚ)) = (k : ℚ) := by
    rw [divThousand_eq, mul_div_cancel_left₀ _ (by norm_num : (1000 : ℚ) ≠ 0)]
  show e.nickname ++ '/' :: ratToChars (divThousand (1000 * (k : ℚ))) =
    e.nickname ++ '/' :: intToChars k
  rw [hval, ratToChars]
  rw [if_pos (by simp : ((k : ℚ)).den = 1)]
  simp

theorem intToChars_facts (k : ℤ) :
    intToChars k ≠ [] ∧ jsTrim (intToChars k) = intToChars k ∧
      '/' ∉ intToChars k ∧ ',' ∉ intToChars k ∧ '\n' ∉ intToChars k := by
  have hchars := intToChars_digits k
  have hnws : ∀ c ∈ intToChars k, c.isWhitespace = false := by
    intro c hc
    rcases hchars c hc with rfl | ⟨d, hd, rfl⟩
    · decide
    · exact (digitChar_props hd).1
  refine ⟨?_, jsTrim_eq_self hnws, ?_, ?_, ?_⟩
  · unfold intToChars
    split
    · simp
    · exact (natToChars_spec k.natAbs).2.2
  · intro hmem
    rcases hchars _ hmem with h | ⟨d, hd, h⟩
    · exact absurd h (by decide)
    · exact absurd h.symm (digitChar_props hd).2.2.2.2.1
  · intro hmem
    rcases hchars _ hmem with h | ⟨d, hd, h⟩
    · exact absurd h (by decide)
    · exact absurd h.symm (digitChar_props hd).2.2.2.2.2.1
  · intro hmem
    rcases hchars _ hmem with h | ⟨d, hd, h⟩
    · exact absurd h (by decide)
    · exact absurd h.symm (digitChar_props hd).2.2.2.2.2.2

theorem parseNicknameText_renderEntry {e : NicknameWithLine}
    (h1 : jsTrim e.nickname = e.nickname) (h2 : e.nickname ≠ [])
    (h3 : '/' ∉ e.nickname) (h4 : '\n' ∉ e.nickname)
    (h5 : ∀ q ∈ e.line, ∃ k : ℤ, q = 1000 * (k : ℚ)) :
    parseNicknameText (renderEntry e) = [e] ∧ '\n' ∉ renderEntry e := by
  cases hl : e.line with
  | none =>
    have hre : renderEntry e = e.nickname := by
      rw [renderEntry, hl]
    rw [hre]
    refine ⟨?_, h4⟩
    rw [parseNicknameText_single h4, h1]
    have hempty : e.nickname.isEmpty = false := by
      cases hn : e.nickname with
      | nil => exact absurd hn h2
      | cons x xs => rfl
    rw [hempty]
    simp only [Bool.false_eq_true, if_false]
    rw [parseOneLine, if_neg (by rw [contains_false_of_not_mem h3]; simp)]
    have : e = ⟨e.nickname, none⟩ := by
      cases e with
      | mk nick line => simp at hl; rw [hl]
    rw [← this]
    rfl
  | some q =>
    obtain ⟨k, rfl⟩ := h5 q (by rw [hl]; exact Option.mem_some_iff.mpr rfl)
    have hre := renderEntry_line_chars (e := e) (k := k) hl
    obtain ⟨hknil, hktrim, hkslash, hkcomma, hknl⟩ := intToChars_facts k
    have hnl : '\n' ∉ renderEntry e := by
      rw [hre]
      intro hmem
      rcases List.mem_append.mp hmem with h | h
      · exact h4 h
      · rcases List.mem_cons.mp h with h | h
        · exact absurd h (by decide)
        · exact hknl h
    refine ⟨?_, hnl⟩
    rw [hre]
    have htrim : jsTrim (e.nickname ++ '/' :: intToChars k) =
        e.nickname ++ '/' :: intToChars k :=
      jsTrim_append_mid '/' (by decide) h1 h2 hktrim
    have hnlline : '\n' ∉ (e.nickname ++ '/' :: intToChars k : JStr) := by
      intro hmem
      rcases List.mem_append.mp hmem with h | h
      · exact h4 h
      · rcases List.mem_cons.mp h with h | h
        · exact absurd h (by decide)
        · exact hknl h
    rw [parseNicknameText_single hnlline, htrim]
    have hempty : (e.nickname ++ '/' :: intToChars k).isEmpty = false := by
      cases hn : e.nickname with
      | nil => exact absurd hn h2
      | cons x xs => rfl
    rw [hempty]
    simp only [Bool.false_eq_true, if_false]
    rw [parseOneLine_append_slash h1 h2 h3 hktrim hkslash]
    rw [replaceFirstChar_not_mem '.' hkcomma, jsParseFloat_intToChars]
    have hmul : mulThousand ((k : ℚ)) = 1000 * (k : ℚ) := by
      rw [mulThousand_eq]
      ring
    show [(⟨e.nickname, some (mulThousand ((k : ℚ)))⟩ : NicknameWithLine)] = [e]
    rw [hmul]
    have he2 : e = ⟨e.nickname, some (1000 * (k : ℚ))⟩ := by
      cases e with
      | mk nick line => simp at hl; rw [hl]
    rw [← he2]

end NickFilter

namespace NickFilter

/-- C5: parsing `nickname/spec` stores `parseFloat(spec) * 1000` as the
line, and formatting a list of entries whose lines are whole multiples of
1000 (the evenly-dividing case, e.g. 5000 → "5") and re-parsing the result
reproduces the list exactly. -/
theorem claim5_parse_format_roundtrip :
    (∀ (n s : JStr) (v : ℚ),
      jsTrim n = n → n ≠ [] → '/' ∉ n → '\n' ∉ n →
      jsTrim s = s → '/' ∉ s → ',' ∉ s → '\n' ∉ s →
      jsParseFloat s = some v →
      parseNicknameText (n ++ '/' :: s) = [⟨n, some (v * 1000)⟩]) ∧
    (∀ entries : List NicknameWithLine,
      (∀ e ∈ entries, jsTrim e.nickname = e.nickname ∧ e.nickname ≠ [] ∧
        '/' ∉ e.nickname ∧ '\n' ∉ e.nickname ∧
        ∀ q ∈ e.line, ∃ k : ℤ, q = 1000 * (k : ℚ)) →
      parseNicknameText (formatNicknamesAsText entries) = entries) := by
  constructor
  · intro n s v hn1 hn2 hn3 hn4 hs1 hs2 hs3 hs4 hv
    have hnl : '\n' ∉ (n ++ '/' :: s : JStr) := by
      intro hmem
      rcases List.mem_append.mp hmem with h | h
      · exact hn4 h
      · rcases List.mem_cons.mp h with h | h
        · exact absurd h (by decide)
        · exact hs4 h
    have htrim := jsTrim_append_mid '/' (by decide) hn1 hn2 hs1
    rw [parseNicknameText_single hnl, htrim]
    have hempty : (n ++ '/' :: s).isEmpty = false := by
      cases hn : n with
      | nil => exact absurd hn hn2
      | cons x xs => rfl
    rw [hempty]
    simp only [Bool.false_eq_true, if_false]
    rw [parseOneLine_append_slash hn1 hn2 hn3 hs1 hs2]
    rw [replaceFirstChar_not_mem '.' hs3, hv]
    show [(⟨n, some (mulThousand v)⟩ : NicknameWithLine)] = _
    rw [mulThousand_eq]
  · intro entries h
    induction entries with
    | nil => rfl
    | cons e rest ih =>
      obtain ⟨h1, h2, h3, h4, h5⟩ := h e (List.mem_cons_self e rest)
      have hrest := fun e' he' => h e' (List.mem_cons_of_mem _ he')
      obtain ⟨hpe, hnl⟩ := parseNicknameText_renderEntry h1 h2 h3 h4 h5
      cases rest with
      | nil =>
        show parseNicknameText (joinLines [renderEntry e]) = [e]
        rw [show joinLines [renderEntry e] = renderEntry e from rfl, hpe]
      | cons e2 rest2 =>
        have hih := ih hrest
        show parseNicknameText
          (joinLines (renderEntry e :: renderEntry e2 :: rest2.map renderEntry)) =
          e :: e2 :: rest2
        rw [show joinLines (renderEntry e :: renderEntry e2 :: rest2.map renderEntry) =
          renderEntry e ++ '\n' :: joinLines (renderEntry e2 :: rest2.map renderEntry)
          from rfl]
        rw [parseNicknameText_append_line _ hnl, hpe]
        rw [show joinLines (renderEntry e2 :: rest2.map renderEntry) =
          formatNicknamesAsText (e2 :: rest2) from rfl]
        rw [hih]
        rfl

/-- C5 witness: `parse("n/5")` stores line 5000, and the entry
`{gus, line 5000}` formats as `"gus/5"` and round-trips exactly. -/
theorem claim5_parse_format_roundtrip_witness :
    jsParseFloat ("5".toList) = some 5 ∧
    parseNicknameText ("n".toList ++ '/' :: "5".toList) =
      [⟨"n".toList, some ((5 : ℚ) * 1000)⟩] ∧
    formatNicknamesAsText [⟨"gus".toList, some 5000⟩] = "gus/5".toList ∧
    parseNicknameText (formatNicknamesAsText [⟨"gus".toList, some 5000⟩]) =
      [⟨"gus".toList, some 5000⟩] :=
  ⟨by decide,
    claim5_parse_format_roundtrip.1 ("n".toList) ("5".toList) 5 (by decide) (by decide)
      (by decide) (by decide) (by decide) (by decide) (by decide) (by decide) (by decide),
    by decide,
    claim5_parse_format_roundtrip.2 [⟨"gus".toList, some 5000⟩]
      (by
        intro e he
        rw [List.mem_singleton.mp he]
        refine ⟨by decide, by decide, by decide, by decide, ?_⟩
        intro q hq
        have hq2 : (some (5000 : ℚ)) = some q := hq
        injection hq2 with h
        exact ⟨5, by rw [← h]; norm_num⟩)⟩

end NickFilter
